import Mathlib

/-!
Verification of the automapper-gen field-mapping core.

This file shallowly embeds the parts of the repository that the claims
C1-C10 are about:

* the data model (`internal/types/types.go`, `internal/config/config.go`);
* the code-emission builders of `internal/generator/mapper.go`, translated
  into functions producing a deep embedding (`GStmt`) of the emitted Go
  statements, mirroring the `jennifer/jen` calls statement by statement;
* a small-step-free interpreter giving Go semantics to the emitted
  statement fragment (values are modelled copy-style: a pointer is an
  optional pointee value, a slice is a list of element values; converter
  functions and generated nested MapFrom methods are oracle parameters);
* the static validator of `internal/validator/validator.go`, including the
  visited-set reachability search `canReach` (embedded with an explicit
  fuel argument; a theorem shows the canonical fuel never runs out because
  the search never revisits a node already in its visited set);
* the naming-policy resolver and safe-mapper eligibility predicate of the
  generator variants preserved under `src/unnamed/part_000` and
  `src/unnamed/part_001`;
* the AST type-shape classifier of `internal/parser/types.go`.
-/

namespace AMap

/-- `internal/types/types.go` FieldInfo: a DTO (target) struct field. -/
structure FieldInfo where
  name : String
  type : String
  tag : String
  converterTag : String
  fieldTag : String
  ignore : Bool
  nestedDTO : String
  deriving DecidableEq, Repr

/-- `internal/types/types.go` FieldTypeInfo: classified source field type. -/
structure FieldTypeInfo where
  type : String
  isPointer : Bool
  isSlice : Bool
  baseType : String
  deriving DecidableEq, Repr

/-- `internal/types/types.go` SourceStruct (field map as an association list,
keys unique per schema load). -/
structure SourceStruct where
  name : String
  fields : List (String × FieldTypeInfo)
  deriving DecidableEq, Repr

/-- `internal/types/types.go` DTOMapping. -/
structure DTOMapping where
  name : String
  sources : List String
  fields : List FieldInfo
  bidirectional : Bool
  deriving DecidableEq, Repr

/-- `internal/types/types.go` FunctionInfo (the parts the core consults). -/
structure FunctionInfo where
  name : String
  paramTypes : List String
  returnTypes : List String
  isConverter : Bool
  isInverter : Bool
  invertsFunc : String
  deriving DecidableEq, Repr

/-- `internal/config/config.go` ConverterDef. -/
structure ConverterDef where
  name : String
  function : String
  deriving DecidableEq, Repr

/-- `internal/config/config.go` Config (the parts the generator consults). -/
structure Config where
  output : String
  converters : List ConverterDef
  nilPointersForNull : Bool
  deriving DecidableEq, Repr

/-- Go `map[string]V` lookup for a map built by inserting list entries in
order (later duplicate keys overwrite earlier ones), as in the
`converterMap[conv.Name] = conv` loops of the source. -/
def mapLookup {α : Type} (key : α → String) (l : List α) (k : String) : Option α :=
  l.foldl (fun acc c => if key c = k then some c else acc) none

/-- Lookup in a `SourceStruct`'s field map. -/
def lookupField (s : SourceStruct) (k : String) : Option FieldTypeInfo :=
  (mapLookup Prod.fst s.fields k).map Prod.snd

/-- Go `strings.HasPrefix` (character-list level, so that concrete
instances evaluate inside the kernel). -/
def goStartsWith (s pre : String) : Bool :=
  pre.data.isPrefixOf s.data

/-- Go `strings.TrimPrefix` (character-list level). -/
def goTrimPre (s pre : String) : String :=
  if pre.data.isPrefixOf s.data then ⟨s.data.drop pre.data.length⟩ else s

/-- Go `strings.ContainsRune` (character-list level). -/
def goContains (s : String) (c : Char) : Bool :=
  s.data.contains c

/-- Go `strings.Split` with a one-character separator (character-list
level; `strings.Split` never returns an empty list). -/
def splitChar (sep : Char) : List Char → List (List Char)
  | [] => [[]]
  | c :: rest =>
    match splitChar sep rest with
    | [] => [[c]]
    | h :: t => if c = sep then [] :: h :: t else (c :: h) :: t

/-- `generator.ExtractBaseType`: referenced by `mapper.go` but its defining
file is not among the provided sources; it is the same prefix-stripping
helper as the validator's `extractBaseType` and the flat prototype's
`extractBaseType` in `src/unnamed/part_003` (strip one leading pointer
sigil, then one leading slice sigil). -/
def ExtractBaseType (t : String) : String :=
  goTrimPre (goTrimPre t "*") "[]"

/-- `parser.IsSafeConverterSignature` (`internal/parser/function.go`):
one parameter, one return value. -/
def IsSafeConverterSignature (fn : FunctionInfo) : Bool :=
  fn.paramTypes.length == 1 && fn.returnTypes.length == 1

/-- `parser.IsErrorReturningConverterSignature`: one parameter, two return
values, second return type literally `error`. -/
def IsErrorReturningConverterSignature (fn : FunctionInfo) : Bool :=
  if fn.paramTypes.length != 1 || fn.returnTypes.length != 2 then false
  else fn.returnTypes.getD 1 "" == "error"

/-- Deep embedding of the Go expressions the generator emits (mirrors the
`jen` expression builders used in `mapper.go`; every emitted call has
exactly one argument, so `callFn` is unary). -/
inductive GExpr where
  | idE (s : String)
  | dot (e : GExpr) (f : String)
  | deref (e : GExpr)
  | addrOf (e : GExpr)
  | callFn (fn : String) (arg : GExpr)
  | structLit (ty : String)
  | makeSlice (elemPtr : Bool) (elemTy : String) (lenA : GExpr)
  | makeSliceLC (elemPtr : Bool) (elemTy : String) (lenA capA : GExpr)
  | lenE (e : GExpr)
  | indexE (e : GExpr) (i : GExpr)
  | appendE (base item : GExpr)
  | litInt (n : Nat)
  | nilE
  deriving DecidableEq, Repr

/-- Conditions of the emitted `if` statements. -/
inductive GCond where
  | notNil (e : GExpr)
  | isNil (e : GExpr)
  deriving DecidableEq, Repr

/-- Deep embedding of the Go statements the generator emits. -/
inductive GStmt where
  | assign (lhs rhs : GExpr)
  | declAssign (v : String) (rhs : GExpr)
  | varDecl (v ty : String)
  | varDeclErr (v : String)
  | assignCall2 (l1 l2 : GExpr) (fn : String) (arg : GExpr)
  | methodCall (errName : String) (recv : GExpr) (method : String) (arg : GExpr)
  | ifStmt (c : GCond) (body : List GStmt)
  | forRange (iv itemv : String) (e : GExpr) (body : List GStmt)
  | blockS (body : List GStmt)
  | retErrorf (fm : String) (args : List GExpr)
  | retNew (msg : String)
  | retNil
  | comment (s : String)
  | lineBrk

-- Structural boolean equality on statements (hand-written because
-- `GStmt` nests `List GStmt`).
mutual
def GStmt.beqS : GStmt → GStmt → Bool
  | .assign a b, .assign c d => a == c && b == d
  | .declAssign v r, .declAssign w s => v == w && r == s
  | .varDecl v t, .varDecl w u => v == w && t == u
  | .varDeclErr v, .varDeclErr w => v == w
  | .assignCall2 a b f x, .assignCall2 c d g y => a == c && b == d && f == g && x == y
  | .methodCall e r m a, .methodCall e2 r2 m2 a2 => e == e2 && r == r2 && m == m2 && a == a2
  | .ifStmt c b, .ifStmt c2 b2 => c == c2 && GStmt.beqL b b2
  | .forRange i t e b, .forRange i2 t2 e2 b2 =>
      i == i2 && t == t2 && e == e2 && GStmt.beqL b b2
  | .blockS b, .blockS b2 => GStmt.beqL b b2
  | .retErrorf f a, .retErrorf g b => f == g && a == b
  | .retNew m, .retNew n => m == n
  | .retNil, .retNil => true
  | .comment s, .comment t => s == t
  | .lineBrk, .lineBrk => true
  | _, _ => false
def GStmt.beqL : List GStmt → List GStmt → Bool
  | [], [] => true
  | a :: l, b :: m => GStmt.beqS a b && GStmt.beqL l m
  | _, _ => false
end

-- `GStmt.beqS` decides equality.
set_option maxHeartbeats 1600000 in
mutual
def GStmt.beqSValid : ∀ a b, GStmt.beqS a b = true ↔ a = b
  | .assign a b, x => by cases x <;> simp [GStmt.beqS]
  | .declAssign v r, x => by cases x <;> simp [GStmt.beqS]
  | .varDecl v t, x => by cases x <;> simp [GStmt.beqS]
  | .varDeclErr v, x => by cases x <;> simp [GStmt.beqS]
  | .assignCall2 a b f y, x => by cases x <;> simp [GStmt.beqS, and_assoc]
  | .methodCall e r m a, x => by cases x <;> simp [GStmt.beqS, and_assoc]
  | .ifStmt c b, x => by
      cases x <;> simp [GStmt.beqS]
      rename_i c2 b2
      rw [GStmt.beqLValid b b2]
      tauto
  | .forRange i t e b, x => by
      cases x <;> simp [GStmt.beqS]
      rename_i i2 t2 e2 b2
      rw [GStmt.beqLValid b b2]
      tauto
  | .blockS b, x => by
      cases x <;> simp [GStmt.beqS]
      rename_i b2
      exact GStmt.beqLValid b b2
  | .retErrorf f a, x => by cases x <;> simp [GStmt.beqS]
  | .retNew m, x => by cases x <;> simp [GStmt.beqS]
  | .retNil, x => by cases x <;> simp [GStmt.beqS]
  | .comment s, x => by cases x <;> simp [GStmt.beqS]
  | .lineBrk, x => by cases x <;> simp [GStmt.beqS]
def GStmt.beqLValid : ∀ l m, GStmt.beqL l m = true ↔ l = m
  | [], [] => by simp [GStmt.beqL]
  | [], _ :: _ => by simp [GStmt.beqL]
  | _ :: _, [] => by simp [GStmt.beqL]
  | a :: l, b :: m => by
      simp only [GStmt.beqL, Bool.and_eq_true, GStmt.beqSValid a b, GStmt.beqLValid l m,
        List.cons.injEq]
end

instance : DecidableEq GStmt := fun a b => decidable_of_iff _ (GStmt.beqSValid a b)

/-- Shorthand for the emitted `d.<field>` selector. -/
def dstF (f : String) : GExpr := .dot (.idE "d") f

/-- Shorthand for the emitted `src.<field>` selector. -/
def srcF (f : String) : GExpr := .dot (.idE "src") f

/-- `buildFieldMapping` (`mapper.go` 681-730): Direct-plan statements for a
field with pointer adaptation. -/
def buildFieldMapping (dtoField : FieldInfo) (sourceField : FieldTypeInfo)
    (sourceFieldName : String) : List GStmt :=
  let dtoIsPointer := goStartsWith dtoField.type "*"
  let srcIsPointer := sourceField.isPointer
  let dtoBaseType := ExtractBaseType dtoField.type
  let srcBaseType := sourceField.baseType
  if dtoBaseType ≠ srcBaseType then
    [.assign (dstF dtoField.name) (srcF sourceFieldName)]
  else if dtoIsPointer == srcIsPointer then
    [.assign (dstF dtoField.name) (srcF sourceFieldName)]
  else if srcIsPointer && !dtoIsPointer then
    [.ifStmt (.notNil (srcF sourceFieldName))
       [.assign (dstF dtoField.name) (.deref (srcF sourceFieldName))],
     .comment ("// " ++ dtoField.name ++ ": nil pointer will result in zero value")]
  else if !srcIsPointer && dtoIsPointer then
    [.blockS
       [.declAssign "v" (srcF sourceFieldName),
        .assign (dstF dtoField.name) (.addrOf (.idE "v"))]]
  else
    [.assign (dstF dtoField.name) (srcF sourceFieldName)]

/-- `buildSafeConverterMappingDirect` (`mapper.go` 146-198): safe converter
invoked directly by function name. -/
def buildSafeConverterMappingDirect (dtoField : FieldInfo) (sourceField : FieldTypeInfo)
    (sourceFieldName functionName : String) : List GStmt :=
  let srcIsPointer := sourceField.isPointer
  let dstIsPointer := goStartsWith dtoField.type "*"
  if srcIsPointer then
    if dstIsPointer then
      [.ifStmt (.notNil (srcF sourceFieldName))
         [.declAssign "result" (.callFn functionName (.deref (srcF sourceFieldName))),
          .assign (dstF dtoField.name) (.addrOf (.idE "result"))],
       .comment ("// " ++ dtoField.name ++ ": nil pointer will result in nil")]
    else
      [.ifStmt (.notNil (srcF sourceFieldName))
         [.assign (dstF dtoField.name) (.callFn functionName (.deref (srcF sourceFieldName)))],
       .comment ("// " ++ dtoField.name ++ ": nil pointer will result in zero value")]
  else if dstIsPointer then
    [.blockS
       [.declAssign "result" (.callFn functionName (srcF sourceFieldName)),
        .assign (dstF dtoField.name) (.addrOf (.idE "result"))]]
  else
    [.assign (dstF dtoField.name) (.callFn functionName (srcF sourceFieldName))]

/-- The `fmt.Errorf` format string used by converter failure checks:
`converting field <name>: %w`. -/
def convErrFmt (fieldName : String) : String :=
  "converting field " ++ fieldName ++ ": %w"

/-- The emitted failure check following a fallible converter invocation. -/
def errCheckStmt (fieldName : String) : GStmt :=
  .ifStmt (.notNil (.idE "err")) [.retErrorf (convErrFmt fieldName) [.idE "err"]]

/-- `buildErrorReturningConverterMappingDirect` (`mapper.go` 200-284):
fallible converter invoked directly by function name. -/
def buildErrorReturningConverterMappingDirect (dtoField : FieldInfo)
    (sourceField : FieldTypeInfo) (sourceFieldName functionName : String) : List GStmt :=
  let srcIsPointer := sourceField.isPointer
  let dstIsPointer := goStartsWith dtoField.type "*"
  if srcIsPointer then
    if dstIsPointer then
      [.ifStmt (.notNil (srcF sourceFieldName))
         [.varDecl "result" (ExtractBaseType dtoField.type),
          .varDeclErr "err",
          .assignCall2 (.idE "result") (.idE "err") functionName (.deref (srcF sourceFieldName)),
          errCheckStmt dtoField.name,
          .assign (dstF dtoField.name) (.addrOf (.idE "result"))],
       .comment ("// " ++ dtoField.name ++ ": nil pointer will result in nil")]
    else
      [.ifStmt (.notNil (srcF sourceFieldName))
         [.varDeclErr "err",
          .assignCall2 (dstF dtoField.name) (.idE "err") functionName (.deref (srcF sourceFieldName)),
          errCheckStmt dtoField.name],
       .comment ("// " ++ dtoField.name ++ ": nil pointer will result in zero value")]
  else if dstIsPointer then
    [.blockS
       [.varDecl "result" (ExtractBaseType dtoField.type),
        .varDeclErr "err",
        .assignCall2 (.idE "result") (.idE "err") functionName (srcF sourceFieldName),
        errCheckStmt dtoField.name,
        .assign (dstF dtoField.name) (.addrOf (.idE "result"))]]
  else
    [.blockS
       [.varDeclErr "err",
        .assignCall2 (dstF dtoField.name) (.idE "err") functionName (srcF sourceFieldName),
        errCheckStmt dtoField.name]]

/-- `buildConverterMappingDirect` (`mapper.go` 132-144). -/
def buildConverterMappingDirect (dtoField : FieldInfo) (sourceField : FieldTypeInfo)
    (sourceFieldName functionName : String) (isSafe : Bool) : List GStmt :=
  if isSafe then
    buildSafeConverterMappingDirect dtoField sourceField sourceFieldName functionName
  else
    buildErrorReturningConverterMappingDirect dtoField sourceField sourceFieldName functionName

/-- `buildSafeConverterMapping` (`mapper.go` 286-343): registered safe
converter; identical statement shapes with `conv.Function` as callee. -/
def buildSafeConverterMapping (dtoField : FieldInfo) (sourceField : FieldTypeInfo)
    (sourceFieldName : String) (conv : ConverterDef) : List GStmt :=
  buildSafeConverterMappingDirect dtoField sourceField sourceFieldName conv.function

/-- `buildErrorReturningConverterMapping` (`mapper.go` 362-451): registered
fallible converter; identical statement shapes with `conv.Function` as
callee. -/
def buildErrorReturningConverterMapping (dtoField : FieldInfo) (sourceField : FieldTypeInfo)
    (sourceFieldName : String) (conv : ConverterDef) : List GStmt :=
  buildErrorReturningConverterMappingDirect dtoField sourceField sourceFieldName conv.function

/-- `buildConverterMapping` (`mapper.go` 345-360). -/
def buildConverterMapping (dtoField : FieldInfo) (sourceField : FieldTypeInfo)
    (sourceFieldName : String) (conv : ConverterDef) (isSafe : Bool) : List GStmt :=
  if isSafe then buildSafeConverterMapping dtoField sourceField sourceFieldName conv
  else buildErrorReturningConverterMapping dtoField sourceField sourceFieldName conv

/-- `ExtractTypeNameWithoutPackage` behaviour used by
`buildNestedDTOMapping`: the segment after the final dot of a qualified
type name. Its defining file is not among the provided sources; the split
into qualified and unqualified branches in `buildNestedDTOMapping` keeps
the claims here independent of its exact behaviour. -/
def ExtractTypeNameWithoutPackage (t : String) : String :=
  ⟨(splitChar '.' t.data).getLastD t.data⟩

/-- The `fmt.Errorf` format string used by nested-mapping failure checks. -/
def nestedErrFmt (fieldName : String) : String :=
  "mapping nested field " ++ fieldName ++ ": %w"

/-- The `fmt.Errorf` format string of per-element nested-slice failures. -/
def nestedSliceErrFmt (fieldName : String) : String :=
  "mapping nested field " ++ fieldName ++ "[%d]: %w"

/-- The emitted failure check after a nested `MapFrom` call. -/
def nestedErrCheck (fieldName : String) : GStmt :=
  .ifStmt (.notNil (.idE "err")) [.retErrorf (nestedErrFmt fieldName) [.idE "err"]]

/-- The emitted per-element failure check inside nested-slice loops. -/
def nestedSliceErrCheck (fieldName : String) : GStmt :=
  .ifStmt (.notNil (.idE "err")) [.retErrorf (nestedSliceErrFmt fieldName) [.idE "i", .idE "err"]]

/-- `buildNestedSliceMapping` (`mapper.go` 559-679): slice-to-slice nested
DTO mapping, with the four element-pointer sub-cases. -/
def buildNestedSliceMapping (dtoField : FieldInfo) (sourceField : FieldTypeInfo)
    (sourceFieldName dtoTypeName methodName : String) : List GStmt :=
  let dtoElemType := goTrimPre dtoField.type "[]"
  let srcElemType := goTrimPre sourceField.type "[]"
  let dtoElemIsPointer := goStartsWith dtoElemType "*"
  let srcElemIsPointer := goStartsWith srcElemType "*"
  let cleanDtoTypeName := goTrimPre dtoTypeName "*"
  if !srcElemIsPointer && !dtoElemIsPointer then
    [.blockS
       [.assign (dstF dtoField.name)
          (.makeSlice false cleanDtoTypeName (.lenE (srcF sourceFieldName))),
        .forRange "i" "item" (srcF sourceFieldName)
          [.varDeclErr "err",
           .methodCall "err" (.indexE (dstF dtoField.name) (.idE "i")) methodName
             (.addrOf (.idE "item")),
           nestedSliceErrCheck dtoField.name]]]
  else if srcElemIsPointer && dtoElemIsPointer then
    [.blockS
       [.assign (dstF dtoField.name)
          (.makeSlice true cleanDtoTypeName (.lenE (srcF sourceFieldName))),
        .forRange "i" "item" (srcF sourceFieldName)
          [.ifStmt (.notNil (.idE "item"))
             [.declAssign "nested" (.addrOf (.structLit cleanDtoTypeName)),
              .varDeclErr "err",
              .methodCall "err" (.idE "nested") methodName (.idE "item"),
              nestedSliceErrCheck dtoField.name,
              .assign (.indexE (dstF dtoField.name) (.idE "i")) (.idE "nested")]]]]
  else if !srcElemIsPointer && dtoElemIsPointer then
    [.blockS
       [.assign (dstF dtoField.name)
          (.makeSlice true cleanDtoTypeName (.lenE (srcF sourceFieldName))),
        .forRange "i" "item" (srcF sourceFieldName)
          [.declAssign "nested" (.addrOf (.structLit cleanDtoTypeName)),
           .varDeclErr "err",
           .methodCall "err" (.idE "nested") methodName (.addrOf (.idE "item")),
           nestedSliceErrCheck dtoField.name,
           .assign (.indexE (dstF dtoField.name) (.idE "i")) (.idE "nested")]]]
  else if srcElemIsPointer && !dtoElemIsPointer then
    [.blockS
       [.assign (dstF dtoField.name)
          (.makeSliceLC false cleanDtoTypeName (.litInt 0) (.lenE (srcF sourceFieldName))),
        .forRange "i" "item" (srcF sourceFieldName)
          [.ifStmt (.notNil (.idE "item"))
             [.varDecl "nested" cleanDtoTypeName,
              .varDeclErr "err",
              .methodCall "err" (.idE "nested") methodName (.idE "item"),
              nestedSliceErrCheck dtoField.name,
              .assign (dstF dtoField.name)
                (.appendE (dstF dtoField.name) (.idE "nested"))]]]]
  else
    [.comment ("// " ++ dtoField.name ++ ": unsupported slice mapping")]

/-- `buildNestedDTOMapping` (`mapper.go` 453-557): nested DTO mapping with
pointer and slice handling. -/
def buildNestedDTOMapping (dtoField : FieldInfo) (sourceField : FieldTypeInfo)
    (sourceFieldName : String) : List GStmt :=
  let dtoTypeName := dtoField.nestedDTO
  let sourceTypeName := sourceField.baseType
  let methodName :=
    if goContains sourceTypeName '.' then
      "MapFrom" ++ ExtractTypeNameWithoutPackage sourceTypeName
    else
      "MapFrom" ++ sourceTypeName
  let dtoIsPointer := goStartsWith dtoField.type "*"
  let dtoIsSlice := goStartsWith dtoField.type "[]"
  let srcIsPointer := sourceField.isPointer
  let srcIsSlice := sourceField.isSlice
  if dtoIsSlice && srcIsSlice then
    buildNestedSliceMapping dtoField sourceField sourceFieldName dtoTypeName methodName
  else if dtoIsPointer && srcIsPointer then
    [.ifStmt (.notNil (srcF sourceFieldName))
       [.declAssign "nested" (.addrOf (.structLit dtoTypeName)),
        .varDeclErr "err",
        .methodCall "err" (.idE "nested") methodName (srcF sourceFieldName),
        nestedErrCheck dtoField.name,
        .assign (dstF dtoField.name) (.idE "nested")],
     .comment ("// " ++ dtoField.name ++ ": nil pointer will result in nil")]
  else if !dtoIsPointer && srcIsPointer then
    [.ifStmt (.notNil (srcF sourceFieldName))
       [.varDecl "nested" dtoTypeName,
        .varDeclErr "err",
        .methodCall "err" (.idE "nested") methodName (srcF sourceFieldName),
        nestedErrCheck dtoField.name,
        .assign (dstF dtoField.name) (.idE "nested")],
     .comment ("// " ++ dtoField.name ++ ": nil pointer will result in zero value")]
  else if dtoIsPointer && !srcIsPointer then
    [.blockS
       [.declAssign "nested" (.addrOf (.structLit dtoTypeName)),
        .varDeclErr "err",
        .methodCall "err" (.idE "nested") methodName (.addrOf (srcF sourceFieldName)),
        nestedErrCheck dtoField.name,
        .assign (dstF dtoField.name) (.idE "nested")]]
  else
    [.blockS
       [.varDecl "nested" dtoTypeName,
        .varDeclErr "err",
        .methodCall "err" (.idE "nested") methodName (.addrOf (srcF sourceFieldName)),
        nestedErrCheck dtoField.name,
        .assign (dstF dtoField.name) (.idE "nested")]]

/-- `resolveSourceFieldName` of the current generator (`mapper.go` 121-130):
explicit field tag, else the field's own name. -/
def resolveSourceFieldName (dtoField : FieldInfo) : String :=
  if dtoField.fieldTag ≠ "" then dtoField.fieldTag else dtoField.name

/-- One iteration of the field loop of `buildMethodBody` (`mapper.go`
69-115): the statements the field contributes and the names it adds to the
ignored-fields summary. -/
def fieldStep (converterMap : String → Option ConverterDef)
    (functions : List (String × FunctionInfo)) (source : SourceStruct)
    (dtoField : FieldInfo) : List GStmt × List String :=
  if dtoField.ignore then
    ([], [dtoField.name])
  else
    let sourceFieldName := resolveSourceFieldName dtoField
    match lookupField source sourceFieldName with
    | none =>
      ([.comment (dtoField.name ++ ": not found in source, will be zero value")],
       [dtoField.name])
    | some sourceField =>
      if dtoField.nestedDTO ≠ "" then
        (buildNestedDTOMapping dtoField sourceField sourceFieldName, [])
      else if dtoField.converterTag ≠ "" then
        match converterMap dtoField.converterTag with
        | none =>
          match (mapLookup Prod.fst functions dtoField.converterTag).map Prod.snd with
          | none =>
            ([.comment (dtoField.name ++ ": converter \x27" ++ dtoField.converterTag
                ++ "\x27 not found")],
             [dtoField.name])
          | some fn =>
            (buildConverterMappingDirect dtoField sourceField sourceFieldName
               dtoField.converterTag (IsSafeConverterSignature fn), [])
        | some conv =>
          let isSafe :=
            match (mapLookup Prod.fst functions conv.function).map Prod.snd with
            | some fn => IsSafeConverterSignature fn
            | none => false
          (buildConverterMapping dtoField sourceField sourceFieldName conv isSafe, [])
      else
        (buildFieldMapping dtoField sourceField sourceFieldName, [])

/-- `buildMethodBody` (`mapper.go` 45-119): leading nil-source guard, one
contribution per field in order, trailing success return; second component
is the ignored-fields summary. -/
def buildMethodBody (dto : DTOMapping) (source : SourceStruct) (cfg : Config)
    (functions : List (String × FunctionInfo)) : List GStmt × List String :=
  let converterMap := mapLookup ConverterDef.name cfg.converters
  ([.ifStmt (.isNil (.idE "src")) [.retNew "source is nil"], .lineBrk]
     ++ dto.fields.flatMap (fun f => (fieldStep converterMap functions source f).1)
     ++ [.lineBrk, .retNil],
   dto.fields.flatMap (fun f => (fieldStep converterMap functions source f).2))

/-- The output of `GenerateMapFromMethod` (`mapper.go` 13-43) as far as the
claims observe it: the optional ignored-fields comment and the method
body. -/
structure GeneratedMethod where
  ignoredComment : Option String
  body : List GStmt

/-- `GenerateMapFromMethod` (`mapper.go` 13-43). -/
def GenerateMapFromMethod (dto : DTOMapping) (source : SourceStruct) (cfg : Config)
    (functions : List (String × FunctionInfo)) : GeneratedMethod :=
  let mb := buildMethodBody dto source cfg functions
  { ignoredComment :=
      if mb.2.length > 0 then
        some ("Ignored fields: " ++ String.intercalate ", " mb.2)
      else none,
    body := mb.1 }

/-- Go runtime values for interpreting emitted statements: pointers are
modelled copy-style as optional pointee values, slices as lists; `structV`
is an opaque record value (`tag` distinguishes abstract instances),
`errV` a Go `error` variable. -/
inductive GoVal where
  | intV (n : Int)
  | strV (s : String)
  | boolV (b : Bool)
  | ptrV (p : Option GoVal)
  | sliceV (xs : List GoVal)
  | structV (ty : String) (tag : Nat)
  | errV (e : Option String)

/-- Abrupt outcomes of executing emitted statements: an ill-typed step, an
emitted failure return, or the final success return. -/
inductive GoAbort where
  | stuck
  | errAbort (msg : String)
  | retSuccess
  deriving DecidableEq, Repr

/-- Interpreter state: the source struct fields, the destination DTO
fields, and the local variables of the generated method. -/
structure GoEnv where
  src : List (String × GoVal)
  dst : List (String × GoVal)
  locals : List (String × GoVal)

/-- Semantic oracles: `sfn` interprets safe converter functions, `ffn`
fallible converter functions, and `mfn` the generated nested MapFrom
methods (given the dereferenced source value, produce the mapped DTO
value or a failure). -/
structure Oracles where
  sfn : String → GoVal → GoVal
  ffn : String → GoVal → Except String GoVal
  mfn : String → GoVal → Except String GoVal

/-- Association-list lookup (Go map/struct field read). -/
def lookupAssoc (l : List (String × GoVal)) (k : String) : Option GoVal :=
  match l with
  | [] => none
  | (k2, v2) :: rest => if k2 = k then some v2 else lookupAssoc rest k

/-- Association-list update (Go map/struct field write). -/
def setAssoc (l : List (String × GoVal)) (k : String) (v : GoVal) : List (String × GoVal) :=
  match l with
  | [] => [(k, v)]
  | (k2, v2) :: rest => if k2 = k then (k, v) :: rest else (k2, v2) :: setAssoc rest k v

/-- Zero value of a slice element type (`make` pre-fill). -/
def zeroElem (elemPtr : Bool) (ty : String) : GoVal :=
  if elemPtr then .ptrV none else .structV ty 0

/-- Evaluation of emitted expressions. -/
def evalExpr (o : Oracles) (env : GoEnv) : GExpr → Option GoVal
  | .idE s => lookupAssoc env.locals s
  | .dot (.idE "src") f => lookupAssoc env.src f
  | .dot (.idE "d") f => lookupAssoc env.dst f
  | .dot _ _ => none
  | .deref e =>
    match evalExpr o env e with
    | some (.ptrV (some v)) => some v
    | _ => none
  | .addrOf e => (evalExpr o env e).map (fun v => .ptrV (some v))
  | .callFn fn a => (evalExpr o env a).map (o.sfn fn)
  | .structLit ty => some (.structV ty 0)
  | .makeSlice ep ty ln =>
    match evalExpr o env ln with
    | some (.intV n) => some (.sliceV (List.replicate n.toNat (zeroElem ep ty)))
    | _ => none
  | .makeSliceLC ep ty ln _capA =>
    match evalExpr o env ln with
    | some (.intV n) => some (.sliceV (List.replicate n.toNat (zeroElem ep ty)))
    | _ => none
  | .lenE e =>
    match evalExpr o env e with
    | some (.sliceV xs) => some (.intV xs.length)
    | _ => none
  | .indexE e i =>
    match evalExpr o env e, evalExpr o env i with
    | some (.sliceV xs), some (.intV k) => xs.get? k.toNat
    | _, _ => none
  | .appendE a b =>
    match evalExpr o env a, evalExpr o env b with
    | some (.sliceV xs), some v => some (.sliceV (xs ++ [v]))
    | _, _ => none
  | .litInt n => some (.intV n)
  | .nilE => some (.ptrV none)

/-- Truth value of emitted conditions (`x != nil` / `x == nil`). -/
def evalCond (o : Oracles) (env : GoEnv) : GCond → Option Bool
  | .notNil e =>
    match evalExpr o env e with
    | some (.ptrV p) => some p.isSome
    | some (.errV x) => some x.isSome
    | _ => none
  | .isNil e =>
    match evalExpr o env e with
    | some (.ptrV p) => some p.isNone
    | some (.errV x) => some x.isNone
    | _ => none

/-- Assignment targets used by the emitted code: `d.F`, a local variable,
or a destination slice slot `d.F[i]`. -/
def writeLhs (env : GoEnv) : GExpr → GoVal → Option GoEnv
  | .dot (.idE "d") f, v => some { env with dst := setAssoc env.dst f v }
  | .idE x, v => some { env with locals := setAssoc env.locals x v }
  | .indexE (.dot (.idE "d") f) (.idE s), v =>
    match lookupAssoc env.locals s, lookupAssoc env.dst f with
    | some (.intV k), some (.sliceV xs) =>
      some { env with dst := setAssoc env.dst f (.sliceV (xs.set k.toNat v)) }
    | _, _ => none
  | _, _ => none

/-- Write through a nested `MapFrom` receiver: a pointer-typed local gets
its pointee replaced, a value-typed local or destination slice slot is
replaced in place (Go auto-addresses the receiver). -/
def writeRecv (env : GoEnv) : GExpr → GoVal → Option GoEnv
  | .idE x, v =>
    match lookupAssoc env.locals x with
    | some (.ptrV _) => some { env with locals := setAssoc env.locals x (.ptrV (some v)) }
    | some _ => some { env with locals := setAssoc env.locals x v }
    | none => none
  | .indexE (.dot (.idE "d") f) (.idE s), v =>
    match lookupAssoc env.locals s, lookupAssoc env.dst f with
    | some (.intV k), some (.sliceV xs) =>
      some { env with dst := setAssoc env.dst f (.sliceV (xs.set k.toNat v)) }
    | _, _ => none
  | _, _ => none

-- Execution of emitted statements: `execStmt` one statement, `execStmts` a
-- sequence, `execLoop` the body of a `for range` once per slice element.
mutual
def execStmt (o : Oracles) (s : GStmt) (env : GoEnv) : Except GoAbort GoEnv :=
  match s with
  | .assign lhs rhs =>
    match evalExpr o env rhs with
    | none => .error .stuck
    | some v =>
      match writeLhs env lhs v with
      | none => .error .stuck
      | some env2 => .ok env2
  | .declAssign x rhs =>
    match evalExpr o env rhs with
    | some v => .ok { env with locals := setAssoc env.locals x v }
    | none => .error .stuck
  | .varDecl x ty => .ok { env with locals := setAssoc env.locals x (.structV ty 0) }
  | .varDeclErr x => .ok { env with locals := setAssoc env.locals x (.errV none) }
  | .assignCall2 l1 l2 fn a =>
    match evalExpr o env a with
    | none => .error .stuck
    | some av =>
      match o.ffn fn av with
      | .ok v =>
        match writeLhs env l1 v with
        | none => .error .stuck
        | some env2 =>
          match writeLhs env2 l2 (.errV none) with
          | none => .error .stuck
          | some env3 => .ok env3
      | .error e =>
        match writeLhs env l1 (.structV "" 0) with
        | none => .error .stuck
        | some env2 =>
          match writeLhs env2 l2 (.errV (some e)) with
          | none => .error .stuck
          | some env3 => .ok env3
  | .methodCall errName recv m a =>
    match evalExpr o env a with
    | some (.ptrV (some sv)) =>
      match o.mfn m sv with
      | .ok nv =>
        match writeRecv env recv nv with
        | none => .error .stuck
        | some env2 => .ok { env2 with locals := setAssoc env2.locals errName (.errV none) }
      | .error e => .ok { env with locals := setAssoc env.locals errName (.errV (some e)) }
    | some (.ptrV none) =>
      .ok { env with locals := setAssoc env.locals errName (.errV (some "source is nil")) }
    | _ => .error .stuck
  | .ifStmt c body =>
    match evalCond o env c with
    | some true => execStmts o body env
    | some false => .ok env
    | none => .error .stuck
  | .forRange iv itemv e body =>
    match evalExpr o env e with
    | some (.sliceV xs) => execLoop o iv itemv body xs 0 env
    | _ => .error .stuck
  | .blockS body => execStmts o body env
  | .retErrorf fm _args => .error (.errAbort fm)
  | .retNew msg => .error (.errAbort msg)
  | .retNil => .error .retSuccess
  | .comment _ => .ok env
  | .lineBrk => .ok env
termination_by (sizeOf s, 0)
def execStmts (o : Oracles) (l : List GStmt) (env : GoEnv) : Except GoAbort GoEnv :=
  match l with
  | [] => .ok env
  | s :: rest =>
    match execStmt o s env with
    | .ok env2 => execStmts o rest env2
    | .error a => .error a
termination_by (sizeOf l, 0)
def execLoop (o : Oracles) (iv itemv : String) (body : List GStmt) (xs : List GoVal)
    (idx : Nat) (env : GoEnv) : Except GoAbort GoEnv :=
  match xs with
  | [] => .ok env
  | x :: rest =>
    let env1 := { env with locals := setAssoc (setAssoc env.locals iv (.intV idx)) itemv x }
    match execStmts o body env1 with
    | .ok env2 => execLoop o iv itemv body rest (idx + 1) env2
    | .error a => .error a
termination_by (sizeOf body, xs.length + 1)
end

/-- `validator.Severity` (two constants `error` / `warning`). -/
inductive Severity where
  | error
  | warning
  deriving DecidableEq, Repr

/-- `validator.ValidationError` (`validator.go` 21-29). -/
structure ValidationError where
  dto : String
  source : String
  field : String
  message : String
  severity : Severity
  fixable : Bool
  suggestion : String
  deriving DecidableEq, Repr

/-- `validator.Validator` state (`validator.go` 60-87): the DTO map is
keyed by DTO name, built by insertion in list order. -/
structure ValidatorState where
  sources : List SourceStruct
  dtos : List DTOMapping
  functions : List (String × FunctionInfo)

/-- `validator.resolveSourceFieldName` (`validator.go` 553-560). -/
def resolveSourceFieldNameV (field : FieldInfo) : String :=
  if field.fieldTag ≠ "" then field.fieldTag else field.name

/-- `validator.extractBaseType` (`validator.go` 620-625). -/
def extractBaseTypeV (t : String) : String :=
  goTrimPre (goTrimPre t "*") "[]"

/-- `validator.areTypesCompatible` (`validator.go` 562-587). -/
def areTypesCompatible (t1 t2 : String) : Bool :=
  let b1 := extractBaseTypeV t1
  let b2 := extractBaseTypeV t2
  if b1 = b2 then true
  else if goContains b1 '.' && !(goContains b2 '.') then
    (splitChar '.' b1.data).getLastD [] = b2.data
  else if goContains b2 '.' && !(goContains b1 '.') then
    (splitChar '.' b2.data).getLastD [] = b1.data
  else false

-- `validator.canReach` (`validator.go` 595-618), embedded with an explicit
-- fuel argument standing for the call depth; `none` means the fuel ran out
-- (a later theorem shows the canonical fuel `dtos.length + 1` never does,
-- precisely because the search never revisits a node in its visited set).
-- The Go function mutates one shared visited map; here the updated visited
-- list is threaded and returned alongside the result.
mutual
def canReachF (dtos : List DTOMapping) (toN : String) :
    Nat → String → List String → Option (Bool × List String)
  | 0, _, _ => none
  | fuel + 1, fr, visited =>
    if fr = toN then some (true, visited)
    else if fr ∈ visited then some (false, visited)
    else
      match mapLookup DTOMapping.name dtos fr with
      | some dto => reachFields dtos toN fuel dto.fields (fr :: visited)
      | none => some (false, fr :: visited)
termination_by fuel _ _ => (fuel, 0)
def reachFields (dtos : List DTOMapping) (toN : String) (fuel : Nat) :
    List FieldInfo → List String → Option (Bool × List String)
  | [], visited => some (false, visited)
  | f :: rest, visited =>
    if f.nestedDTO ≠ "" then
      match canReachF dtos toN fuel f.nestedDTO visited with
      | none => none
      | some (true, vis2) => some (true, vis2)
      | some (false, vis2) => reachFields dtos toN fuel rest vis2
    else reachFields dtos toN fuel rest visited
termination_by l _ => (fuel, l.length + 1)
end

/-- The canonical fuel: one more than the number of DTOs. -/
def canonFuel (dtos : List DTOMapping) : Nat := dtos.length + 1

/-- The number of DTO names not yet in the visited set: the implicit
termination measure of the Go depth-first search (each recursive level
inserts a fresh name into `visited`). -/
def unvisitedCount (dtos : List DTOMapping) (visited : List String) : Nat :=
  ((dtos.map DTOMapping.name).filter (fun n => !(decide (n ∈ visited)))).length

/-- `validator.detectCircularDependency` (`validator.go` 589-593): start a
reachability search from `nestedDTO` towards `currentDTO` with an empty
visited set. The `getD false` branch is dead: the sufficiency theorem
below shows the canonical fuel is never exhausted. -/
def detectCircularDependency (dtos : List DTOMapping) (currentDTO nestedDTO : String) : Bool :=
  ((canReachF dtos currentDTO (canonFuel dtos) nestedDTO []).map Prod.fst).getD false

/-- The nested-reference edge relation over target-type names: `a` has a
field whose NestedDTO is `b`. -/
def nestedEdge (dtos : List DTOMapping) (a b : String) : Prop :=
  ∃ dtoA, mapLookup DTOMapping.name dtos a = some dtoA ∧
    ∃ f ∈ dtoA.fields, f.nestedDTO ≠ "" ∧ f.nestedDTO = b

/-- `validator.validateNestedDTO` (`validator.go` 398-450); returns the
(errors, warnings) it appends. -/
def validateNestedDTO (v : ValidatorState) (dto : DTOMapping) (sourceName : String)
    (field : FieldInfo) (sourceField : FieldTypeInfo) :
    List ValidationError × List ValidationError :=
  let nestedDTOName := field.nestedDTO
  match mapLookup DTOMapping.name v.dtos nestedDTOName with
  | none =>
    ([{ dto := dto.name, source := sourceName, field := field.name,
        message := "Nested DTO \x27" ++ nestedDTOName ++ "\x27 not found",
        severity := .error, fixable := false,
        suggestion := "Ensure " ++ nestedDTOName ++ " is defined with automapper:from annotation" }],
     [])
  | some _ =>
    if detectCircularDependency v.dtos dto.name nestedDTOName then
      ([{ dto := dto.name, source := sourceName, field := field.name,
          message := "Circular dependency detected with " ++ nestedDTOName,
          severity := .error, fixable := false,
          suggestion := "Remove circular references or use a converter instead" }],
       [])
    else
      let dtoIsSlice := goStartsWith field.type "[]"
      let srcIsSlice := sourceField.isSlice
      if dtoIsSlice ≠ srcIsSlice then
        ([{ dto := dto.name, source := sourceName, field := field.name,
            message := "Incompatible slice/non-slice types: " ++ field.type ++ " vs "
              ++ sourceField.type,
            severity := .error, fixable := false,
            suggestion := "Both source and destination must be slices or both must be single values" }],
         [])
      else ([], [])

/-- `validator.validateConverter` (`validator.go` 452-507). -/
def validateConverter (v : ValidatorState) (dto : DTOMapping) (sourceName : String)
    (field : FieldInfo) (sourceField : FieldTypeInfo) :
    List ValidationError × List ValidationError :=
  let converterName := field.converterTag
  match (mapLookup Prod.fst v.functions converterName).map Prod.snd with
  | none =>
    ([{ dto := dto.name, source := sourceName, field := field.name,
        message := "Converter function \x27" ++ converterName ++ "\x27 not found",
        severity := .error, fixable := false,
        suggestion := "Add function \x27" ++ converterName
          ++ "\x27 with //automapper:converter annotation" }],
     [])
  | some fn =>
    if !fn.isConverter then
      ([{ dto := dto.name, source := sourceName, field := field.name,
          message := "Function \x27" ++ converterName
            ++ "\x27 used as converter but not marked with //automapper:converter",
          severity := .error, fixable := false,
          suggestion := "Add //automapper:converter annotation to function \x27"
            ++ converterName ++ "\x27" }],
       [])
    else
      let srcBaseType := extractBaseTypeV sourceField.type
      let dstBaseType := extractBaseTypeV field.type
      if srcBaseType = dstBaseType then
        ([],
         [{ dto := dto.name, source := sourceName, field := field.name,
            message := "Converter specified but types are identical: " ++ srcBaseType,
            severity := .warning, fixable := true,
            suggestion := "Remove converter tag for direct assignment or verify this is intentional" }])
      else ([], [])

/-- `validator.validateDirectMapping` (`validator.go` 509-551). -/
def validateDirectMapping (dto : DTOMapping) (sourceName : String)
    (field : FieldInfo) (sourceField : FieldTypeInfo) :
    List ValidationError × List ValidationError :=
  let dtoBaseType := extractBaseTypeV field.type
  let srcBaseType := sourceField.baseType
  if !(areTypesCompatible dtoBaseType srcBaseType) then
    ([{ dto := dto.name, source := sourceName, field := field.name,
        message := "Type mismatch: " ++ field.type ++ " <- " ++ sourceField.type
          ++ " (cannot convert without converter)",
        severity := .error, fixable := true,
        suggestion := "Add converter tag: `automapper:\"converter=YourConverter\"`" }],
     [])
  else
    let dtoIsPointer := goStartsWith field.type "*"
    let srcIsPointer := sourceField.isPointer
    if dtoIsPointer ≠ srcIsPointer then
      ([],
       [{ dto := dto.name, source := sourceName, field := field.name,
          message := "Pointer conversion: " ++ field.type ++ " <- " ++ sourceField.type,
          severity := .warning, fixable := false,
          suggestion := "Verify this pointer conversion is intentional" }])
    else ([], [])

/-- The missing-binding warning record of `validateField` (`validator.go`
367-376). -/
def missingBindingWarning (dto : DTOMapping) (sourceName : String) (field : FieldInfo)
    (sourceFieldName : String) : ValidationError :=
  { dto := dto.name, source := sourceName, field := field.name,
    message := "Source field \x27" ++ sourceFieldName ++ "\x27 not found, will use zero value",
    severity := .warning, fixable := true,
    suggestion := "Add \x27automapper:\"-\"\x27 tag to explicitly ignore, or add source field" }

/-- `validator.validateField` (`validator.go` 344-396). -/
def validateField (v : ValidatorState) (dto : DTOMapping) (source : SourceStruct)
    (sourceName : String) (field : FieldInfo) :
    List ValidationError × List ValidationError :=
  let sourceFieldName := resolveSourceFieldNameV field
  match lookupField source sourceFieldName with
  | none =>
    if field.fieldTag ≠ "" || field.converterTag ≠ "" || field.nestedDTO ≠ "" then
      ([{ dto := dto.name, source := sourceName, field := field.name,
          message := "Source field \x27" ++ sourceFieldName ++ "\x27 not found",
          severity := .error, fixable := false,
          suggestion := "Check if field name is correct or remove mapping configuration" }],
       [])
    else
      ([], [missingBindingWarning dto sourceName field sourceFieldName])
  | some sourceField =>
    if field.nestedDTO ≠ "" then
      validateNestedDTO v dto sourceName field sourceField
    else if field.converterTag ≠ "" then
      validateConverter v dto sourceName field sourceField
    else
      validateDirectMapping dto sourceName field sourceField

/-- `parser.SnakeToCamel` (`internal/parser/struct.go` 100-108). -/
def SnakeToCamel (s : String) : String :=
  ⟨((splitChar '_' s.data).map (fun part =>
      match part with
      | [] => []
      | c :: rest => c.toUpper :: rest)).flatten⟩

/-- The naming-policy-era configuration consumed by the resolver preserved
in `src/unnamed/part_000` (its `FieldNameTransform` field is shown by the
flat prototype `src/unnamed/part_003`). -/
structure ConfigNP where
  output : String
  fieldNameTransform : String
  deriving DecidableEq, Repr

/-- `resolveSourceFieldName` of `src/unnamed/part_000` (lines 85-102):
explicit tag, else naming-policy transliteration scan, else own name.
The Go source iterates the source field map in unspecified order; here the
fields are a list and the first match in list order is taken. -/
def resolveSourceFieldNameNP (dtoField : FieldInfo) (source : SourceStruct)
    (cfg : ConfigNP) : String :=
  if dtoField.fieldTag ≠ "" then dtoField.fieldTag
  else if cfg.fieldNameTransform = "snake_to_camel" then
    match source.fields.find? (fun p => SnakeToCamel p.1 = dtoField.name) with
    | some p => p.1
    | none => dtoField.name
  else dtoField.name

/-- The converter registration consumed by `isMapperSafe` in
`src/unnamed/part_001`: that file reads a `Trusted` flag on the registered
converter (true = safe signature, cannot fail); the declaring file of that
variant of the struct is not among the provided sources, so the field set
is modelled from its uses in `part_001` and the spec section on
`signatureKind: Safe | Fallible`. -/
structure ConverterDefT where
  name : String
  function : String
  trusted : Bool
  deriving DecidableEq, Repr

/-- The safe-mappers-era configuration consumed by `src/unnamed/part_001`. -/
structure ConfigSM where
  defaultConverters : List ConverterDefT
  enableSafeMappers : Bool
  enableUnsafeWrappers : Bool
  deriving DecidableEq, Repr

/-- `isMapperSafe` of `src/unnamed/part_001` (lines 82-118): a mapper is
safe iff every non-ignored field has no nested reference and any converter
it names is registered and trusted. -/
def isMapperSafe (dto : DTOMapping) (cfg : ConfigSM) : Bool :=
  dto.fields.all (fun field =>
    if field.ignore then true
    else if field.nestedDTO ≠ "" then false
    else if field.converterTag ≠ "" then
      match mapLookup ConverterDefT.name cfg.defaultConverters field.converterTag with
      | none => false
      | some conv => conv.trusted
    else true)

/-- Go AST channel directions. -/
inductive ChanDir where
  | send
  | recv
  | both
  deriving DecidableEq, Repr

/-- The Go AST type expressions handled by `internal/parser/types.go`
(function-type forms are omitted: `extractTypeInfo` treats them exactly
like the other atomic cases, rendering text and classifying as scalar). -/
inductive AExpr where
  | ident (s : String)
  | sel (x : AExpr) (nm : String)
  | star (e : AExpr)
  | sliceT (elt : AExpr)
  | arrNT (alen : AExpr) (elt : AExpr)
  | mapT (k v : AExpr)
  | ifaceT (isEmpty : Bool)
  | chanT (dir : ChanDir) (v : AExpr)
  | structT
  | basicLit (v : String)
  deriving DecidableEq, Repr

/-- `parser.exprToString` (`internal/parser/types.go` 69-133). -/
def exprToString : AExpr → String
  | .ident s => s
  | .sel x nm => exprToString x ++ "." ++ nm
  | .star e => "*" ++ exprToString e
  | .sliceT elt => "[]" ++ exprToString elt
  | .arrNT alen elt => "[" ++ exprToString alen ++ "]" ++ exprToString elt
  | .mapT k v => "map[" ++ exprToString k ++ "]" ++ exprToString v
  | .ifaceT true => "interface\x7b\x7d"
  | .ifaceT false => "interface\x7b...\x7d"
  | .chanT .send v => "chan<- " ++ exprToString v
  | .chanT .recv v => "<-chan " ++ exprToString v
  | .chanT .both v => "chan " ++ exprToString v
  | .structT => "struct\x7b...\x7d"
  | .basicLit v => v

/-- `parser.extractTypeInfo` (`internal/parser/types.go` 10-66). -/
def extractTypeInfo : AExpr → FieldTypeInfo
  | .star e =>
    { type := "*" ++ exprToString e, isPointer := true, isSlice := false,
      baseType := exprToString e }
  | .sliceT elt =>
    { type := "[]" ++ exprToString elt, isPointer := false, isSlice := true,
      baseType := exprToString elt }
  | e =>
    { type := exprToString e, isPointer := false, isSlice := false,
      baseType := exprToString e }

/-- Drop the emitted comments and blank lines of a statement list (they
carry no behaviour). -/
def stripComments : List GStmt → List GStmt
  | [] => []
  | .comment _ :: rest => stripComments rest
  | .lineBrk :: rest => stripComments rest
  | s :: rest => s :: stripComments rest

/-- Modelled from the spec: the section 4.4 shape-adaptation table with
the Direct plan's plain assignment as the operation (section 4.4.1);
arguments are the source shape and target shape on the pointer axis.
Scalar to scalar passes the value through; scalar to pointer takes the
address of a defensive local copy; pointer to scalar dereferences under a
source-non-nil guard; pointer to pointer acts under the guard on the
dereferenced value and re-wraps the result in a pointer. -/
def directSpecStmts (fieldName srcName : String) : Bool → Bool → List GStmt
  | false, false => [.assign (dstF fieldName) (srcF srcName)]
  | false, true =>
    [.blockS [.declAssign "v" (srcF srcName),
              .assign (dstF fieldName) (.addrOf (.idE "v"))]]
  | true, false =>
    [.ifStmt (.notNil (srcF srcName))
       [.assign (dstF fieldName) (.deref (srcF srcName))]]
  | true, true =>
    [.ifStmt (.notNil (srcF srcName))
       [.declAssign "v" (.deref (srcF srcName)),
        .assign (dstF fieldName) (.addrOf (.idE "v"))]]

/-- Is this statement an invocation of converter function `fn`? -/
def isConvCallStmt (fn : String) : GStmt → Bool
  | .declAssign _ (.callFn g _) => g == fn
  | .assign _ (.callFn g _) => g == fn
  | .assignCall2 _ _ g _ => g == fn
  | _ => false

/-- Is this statement the emitted failure check `if err != nil { return
fmt.Errorf(msg, err) }`? -/
def isErrCheckRet (msg : String) : GStmt → Bool
  | .ifStmt (.notNil (.idE "err")) [.retErrorf m args] =>
    m == msg && args == [GExpr.idE "err"]
  | _ => false

/-- Does the statement list start with the failure check? -/
def headIsErrCheck (msg : String) : List GStmt → Bool
  | t :: _ => isErrCheckRet msg t
  | [] => false

/-- Every invocation of converter `fn` in the statement tree is
immediately followed by the failure check carrying message `msg`. -/
def convCallsChecked (fn msg : String) : List GStmt → Bool
  | [] => true
  | .ifStmt _ body :: rest => convCallsChecked fn msg body && convCallsChecked fn msg rest
  | .blockS body :: rest => convCallsChecked fn msg body && convCallsChecked fn msg rest
  | s :: rest =>
    (if isConvCallStmt fn s then headIsErrCheck msg rest else true)
      && convCallsChecked fn msg rest

/-- The statement tree contains at least one invocation of converter `fn`. -/
def containsConvCall (fn : String) : List GStmt → Bool
  | [] => false
  | .ifStmt _ body :: rest => containsConvCall fn body || containsConvCall fn rest
  | .blockS body :: rest => containsConvCall fn body || containsConvCall fn rest
  | s :: rest => isConvCallStmt fn s || containsConvCall fn rest

/-- The statement tree contains a failure check (an `err != nil` branch or
an error-wrapping return). -/
def hasFailureCheck : List GStmt → Bool
  | [] => false
  | .ifStmt (.notNil (.idE "err")) _ :: _ => true
  | .retErrorf _ _ :: _ => true
  | .ifStmt _ body :: rest => hasFailureCheck body || hasFailureCheck rest
  | .blockS body :: rest => hasFailureCheck body || hasFailureCheck rest
  | _ :: rest => hasFailureCheck rest

/-- Does an emitted expression take the address of a source field
(aliasing the source)? -/
def takesAddrOfSrcE : GExpr → Bool
  | .addrOf (.dot (.idE "src") _) => true
  | .addrOf e => takesAddrOfSrcE e
  | .deref e => takesAddrOfSrcE e
  | .callFn _ a => takesAddrOfSrcE a
  | .dot e _ => takesAddrOfSrcE e
  | .lenE e => takesAddrOfSrcE e
  | .indexE e i => takesAddrOfSrcE e || takesAddrOfSrcE i
  | .appendE a b => takesAddrOfSrcE a || takesAddrOfSrcE b
  | .makeSlice _ _ l => takesAddrOfSrcE l
  | .makeSliceLC _ _ l c => takesAddrOfSrcE l || takesAddrOfSrcE c
  | _ => false

/-- Truth of `takesAddrOfSrcE` for the expressions of a condition. -/
def takesAddrOfSrcC : GCond → Bool
  | .notNil e => takesAddrOfSrcE e
  | .isNil e => takesAddrOfSrcE e

-- Does a statement tree take the address of a source field anywhere?
mutual
def takesAddrOfSrcS : GStmt → Bool
  | .assign l r => takesAddrOfSrcE l || takesAddrOfSrcE r
  | .declAssign _ r => takesAddrOfSrcE r
  | .varDecl _ _ => false
  | .varDeclErr _ => false
  | .assignCall2 l1 l2 _ a => takesAddrOfSrcE l1 || takesAddrOfSrcE l2 || takesAddrOfSrcE a
  | .methodCall _ recv _ a => takesAddrOfSrcE recv || takesAddrOfSrcE a
  | .ifStmt c body => takesAddrOfSrcC c || takesAddrOfSrc body
  | .forRange _ _ e body => takesAddrOfSrcE e || takesAddrOfSrc body
  | .blockS body => takesAddrOfSrc body
  | .retErrorf _ args => args.any takesAddrOfSrcE
  | .retNew _ => false
  | .retNil => false
  | .comment _ => false
  | .lineBrk => false
def takesAddrOfSrc : List GStmt → Bool
  | [] => false
  | s :: rest => takesAddrOfSrcS s || takesAddrOfSrc rest
end

/-- The fields listed by the ignored-fields summary of `buildMethodBody`:
fields tagged ignored, fields whose resolved source field does not exist,
and converter-tagged fields (without nested reference) whose converter
resolves neither in the converter map nor among the known functions. -/
def ignSummaryPred (converterMap : String → Option ConverterDef)
    (functions : List (String × FunctionInfo)) (source : SourceStruct)
    (f : FieldInfo) : Bool :=
  f.ignore ||
  (lookupField source (resolveSourceFieldName f)).isNone ||
  ((f.nestedDTO == "") && !(f.converterTag == "") &&
    (converterMap f.converterTag).isNone &&
    (mapLookup Prod.fst functions f.converterTag).isNone)

/-- A trivial oracle assignment (identity converters, identity nested
mapping) used by concrete witnesses. -/
def oTriv : Oracles :=
  { sfn := fun _ v => v, ffn := fun _ v => .ok v, mfn := fun _ v => .ok v }

/-- Is a runtime value a non-nil pointer? -/
def isNonNilPtr : GoVal → Bool
  | .ptrV (some _) => true
  | _ => false

end AMap

namespace AMap

theorem lookupAssoc_setAssoc_self (l : List (String × GoVal)) (k : String) (v : GoVal) :
    lookupAssoc (setAssoc l k v) k = some v := by
  induction l with
  | nil => simp [setAssoc, lookupAssoc]
  | cons p rest ih =>
    by_cases h : p.1 = k
    · simp [setAssoc, lookupAssoc, h]
    · simp [setAssoc, lookupAssoc, h, ih]

theorem lookupAssoc_setAssoc_ne (l : List (String × GoVal)) {k1 k2 : String}
    (h : k1 ≠ k2) (v : GoVal) :
    lookupAssoc (setAssoc l k1 v) k2 = lookupAssoc l k2 := by
  induction l with
  | nil => simp [setAssoc, lookupAssoc, h]
  | cons p rest ih =>
    by_cases hp : p.1 = k1
    · simp [setAssoc, lookupAssoc, hp, h]
    · simp [setAssoc, lookupAssoc, hp, ih]

theorem flatMap_if_singleton {α β : Type} (l : List α) (p : α → Bool) (g : α → β)
    (step : α → List β) (hstep : ∀ a, step a = if p a then [g a] else []) :
    l.flatMap step = (l.filter p).map g := by
  induction l with
  | nil => simp
  | cons a rest ih =>
    by_cases h : p a <;> simp [List.flatMap_cons, hstep a, h, ih, List.filter_cons]

/-- C4: in every emitted mapping branch that invokes a Fallible
(error-returning) converter — whether resolved directly by function name
or through the converter registry, in all four pointer/value shape
combinations — the invocation is immediately followed by an error check
returning an error whose message names the target field
(`converting field <name>: %w`) and wraps the underlying failure, while
branches invoking a Safe converter contain no failure check. -/
theorem C4_fallible_always_checked (fld : FieldInfo) (sf : FieldTypeInfo)
    (srcN fn : String) (conv : ConverterDef) :
    (convCallsChecked fn (convErrFmt fld.name)
        (buildErrorReturningConverterMappingDirect fld sf srcN fn) = true ∧
      containsConvCall fn (buildErrorReturningConverterMappingDirect fld sf srcN fn) = true ∧
      hasFailureCheck (buildSafeConverterMappingDirect fld sf srcN fn) = false) ∧
    (convCallsChecked conv.function (convErrFmt fld.name)
        (buildErrorReturningConverterMapping fld sf srcN conv) = true ∧
      containsConvCall conv.function
        (buildErrorReturningConverterMapping fld sf srcN conv) = true ∧
      hasFailureCheck (buildSafeConverterMapping fld sf srcN conv) = false) := by
  cases hp : sf.isPointer <;> cases hd : goStartsWith fld.type "*" <;>
    simp [buildErrorReturningConverterMapping, buildSafeConverterMapping,
      buildErrorReturningConverterMappingDirect, buildSafeConverterMappingDirect,
      hp, hd, convCallsChecked, isConvCallStmt, headIsErrCheck, isErrCheckRet,
      errCheckStmt, containsConvCall, hasFailureCheck, convErrFmt, srcF, dstF]

/-- C5: the bound source field name is resolved in this order, first match
wins: (1) the explicit field tag, verbatim when present; (2) when the
naming policy requests the snake-to-camel transliteration, the first
source field whose transliterated own name equals the target field name;
(3) the target field's own name. Stated on the naming-policy resolver of
`src/unnamed/part_000`; the current generator's and validator's resolvers
implement steps (1) and (3) and coincide with it whenever the policy does
not request a transliteration. -/
theorem C5_resolution_order (fld : FieldInfo) (source : SourceStruct) (cfg : ConfigNP) :
    (fld.fieldTag ≠ "" → resolveSourceFieldNameNP fld source cfg = fld.fieldTag) ∧
    (fld.fieldTag = "" → cfg.fieldNameTransform = "snake_to_camel" →
      ∀ p, source.fields.find? (fun q => SnakeToCamel q.1 = fld.name) = some p →
        resolveSourceFieldNameNP fld source cfg = p.1) ∧
    (fld.fieldTag = "" →
      (cfg.fieldNameTransform ≠ "snake_to_camel" ∨
        source.fields.find? (fun q => SnakeToCamel q.1 = fld.name) = none) →
      resolveSourceFieldNameNP fld source cfg = fld.name) ∧
    (cfg.fieldNameTransform ≠ "snake_to_camel" →
      resolveSourceFieldName fld = resolveSourceFieldNameNP fld source cfg ∧
      resolveSourceFieldNameV fld = resolveSourceFieldNameNP fld source cfg) := by
  refine ⟨?_, ?_, ?_, ?_⟩
  · intro h
    simp [resolveSourceFieldNameNP, h]
  · intro h1 h2 p hp
    simp [resolveSourceFieldNameNP, h1, h2, hp]
  · intro h1 h2
    rcases h2 with h2 | h2 <;> simp [resolveSourceFieldNameNP, h1, h2]
  · intro h
    by_cases ht : fld.fieldTag = "" <;>
      simp [resolveSourceFieldName, resolveSourceFieldNameV, resolveSourceFieldNameNP, ht, h]

/-- C5 witness: with no tag and the snake-to-camel policy, target field
`UserId` binds to source field `user_id`. -/
theorem C5_resolution_order_witness :
    resolveSourceFieldNameNP ⟨"UserId", "int64", "", "", "", false, ""⟩
      ⟨"S", [("user_id", ⟨"int64", false, false, "int64"⟩)]⟩
      ⟨"out.go", "snake_to_camel"⟩ = "user_id" :=
  (C5_resolution_order _ _ _).2.1 rfl rfl ("user_id", ⟨"int64", false, false, "int64"⟩)
    (by decide)

/-- C7: a (target, source) pair is eligible as an overall safe procedure
iff every non-ignored field is Direct (no converter) or Converter-Safe (a
registered trusted converter) and no nested reference is present; and
appending any single non-ignored field carrying a nested reference or a
fallible (unregistered or untrusted) converter flips eligibility to
false. `isMapperSafe` is evaluated once per (target, source) pair by
`GenerateMapFromMethod` of `src/unnamed/part_001`, not per field. -/
theorem C7_safe_eligibility (dto : DTOMapping) (cfg : ConfigSM) :
    (isMapperSafe dto cfg = true ↔
      ∀ f ∈ dto.fields, f.ignore = false →
        f.nestedDTO = "" ∧
        (f.converterTag = "" ∨
          ∃ c, mapLookup ConverterDefT.name cfg.defaultConverters f.converterTag = some c ∧
            c.trusted = true)) ∧
    (∀ f : FieldInfo, f.ignore = false →
      (f.nestedDTO ≠ "" ∨ (f.converterTag ≠ "" ∧
        ∀ c, mapLookup ConverterDefT.name cfg.defaultConverters f.converterTag = some c →
          c.trusted = false)) →
      isMapperSafe { dto with fields := dto.fields ++ [f] } cfg = false) := by
  have hfield : ∀ f : FieldInfo,
      ((if f.ignore then true
        else if f.nestedDTO ≠ "" then false
        else if f.converterTag ≠ "" then
          match mapLookup ConverterDefT.name cfg.defaultConverters f.converterTag with
          | none => false
          | some conv => conv.trusted
        else true) = true) ↔
      (f.ignore = false → f.nestedDTO = "" ∧
        (f.converterTag = "" ∨
          ∃ c, mapLookup ConverterDefT.name cfg.defaultConverters f.converterTag = some c ∧
            c.trusted = true)) := by
    intro f
    by_cases hi : f.ignore <;> by_cases hn : f.nestedDTO = "" <;>
      by_cases hc : f.converterTag = "" <;>
      cases hl : mapLookup ConverterDefT.name cfg.defaultConverters f.converterTag <;>
      simp [hi, hn, hc, hl]
  constructor
  · unfold isMapperSafe
    rw [List.all_eq_true]
    exact ⟨fun h f hf => (hfield f).mp (h f hf), fun h f hf => (hfield f).mpr (h f hf)⟩
  · intro f hig hbad
    have hf : (if f.ignore then true
        else if f.nestedDTO ≠ "" then false
        else if f.converterTag ≠ "" then
          match mapLookup ConverterDefT.name cfg.defaultConverters f.converterTag with
          | none => false
          | some conv => conv.trusted
        else true) = false := by
      rcases hbad with hb | ⟨hb1, hb2⟩
      · simp [hig, hb]
      · by_cases hn : f.nestedDTO = ""
        · cases hl : mapLookup ConverterDefT.name cfg.defaultConverters f.converterTag with
          | none => simp [hig, hn, hb1, hl]
          | some c => simp [hig, hn, hb1, hl, hb2 c hl]
        · simp [hig, hn]
    unfold isMapperSafe
    rw [List.all_append]
    simp only [List.all_cons, List.all_nil, hf, Bool.and_false, Bool.false_and,
      Bool.and_true]

/-- C7 witness: a target whose only field is a plain direct mapping is
eligible; appending a nested-reference field makes it ineligible. -/
theorem C7_safe_eligibility_witness :
    isMapperSafe ⟨"T", ["S"], [⟨"ID", "int64", "", "", "", false, ""⟩], false⟩
      ⟨[], true, true⟩ = true ∧
    isMapperSafe ⟨"T", ["S"],
      [⟨"ID", "int64", "", "", "", false, ""⟩, ⟨"N", "NDTO", "", "", "", false, "NDTO"⟩],
      false⟩ ⟨[], true, true⟩ = false := by
  constructor
  · exact (C7_safe_eligibility _ _).1.mpr (by decide)
  · exact (C7_safe_eligibility ⟨"T", ["S"], [⟨"ID", "int64", "", "", "", false, ""⟩], false⟩
      ⟨[], true, true⟩).2 ⟨"N", "NDTO", "", "", "", false, "NDTO"⟩ rfl (Or.inl (by decide))

/-- C6: when the resolved source field does not exist, a field carrying
any explicit directive (field tag, converter tag, or nested reference)
yields exactly one Error, and a field carrying no directive yields no
Error and exactly one Warning with fixable set and a suggestion that
references the ignore tag. -/
theorem C6_missing_binding (v : ValidatorState) (dto : DTOMapping) (source : SourceStruct)
    (sourceName : String) (field : FieldInfo)
    (h : lookupField source (resolveSourceFieldNameV field) = none) :
    ((field.fieldTag ≠ "" ∨ field.converterTag ≠ "" ∨ field.nestedDTO ≠ "") →
      validateField v dto source sourceName field =
        ([{ dto := dto.name, source := sourceName, field := field.name,
            message := "Source field \x27" ++ resolveSourceFieldNameV field
              ++ "\x27 not found",
            severity := .error, fixable := false,
            suggestion := "Check if field name is correct or remove mapping configuration" }],
         [])) ∧
    ((field.fieldTag = "" ∧ field.converterTag = "" ∧ field.nestedDTO = "") →
      validateField v dto source sourceName field =
        ([], [missingBindingWarning dto sourceName field (resolveSourceFieldNameV field)]) ∧
      (missingBindingWarning dto sourceName field (resolveSourceFieldNameV field)).fixable
        = true ∧
      List.IsInfix ("automapper:\"-\"").data
        (missingBindingWarning dto sourceName field
          (resolveSourceFieldNameV field)).suggestion.data) := by
  constructor
  · intro hdir
    rcases hdir with hd | hd | hd <;> simp [validateField, h, hd]
  · rintro ⟨h1, h2, h3⟩
    refine ⟨by simp [validateField, h, h1, h2, h3], rfl, ?_⟩
    simp [missingBindingWarning]
    decide

/-- C6 witness: target field `Foo` with no tag and no matching source
field produces the single fixable Warning. -/
theorem C6_missing_binding_witness :
    validateField ⟨[], [], []⟩ ⟨"T", ["S"], [], false⟩ ⟨"S", []⟩ "S"
      ⟨"Foo", "int", "", "", "", false, ""⟩ =
      ([], [missingBindingWarning ⟨"T", ["S"], [], false⟩ "S"
        ⟨"Foo", "int", "", "", "", false, ""⟩ "Foo"]) :=
  ((C6_missing_binding ⟨[], [], []⟩ ⟨"T", ["S"], [], false⟩ ⟨"S", []⟩ "S"
      ⟨"Foo", "int", "", "", "", false, ""⟩ rfl).2 ⟨rfl, rfl, rfl⟩).1

/-- C9 counterexample: the claimed invariant (recorded base type is always
the innermost scalar name) fails at one wrapper of nesting: the parser
classifier records base type `*T` for the sequence-of-pointer text and
`[]T` for the pointer-of-sequence AST, and the validator string helper
records `*T` for `[]*T`. -/
theorem C9_counterexample :
    (extractTypeInfo (.sliceT (.star (.ident "T")))).baseType ≠ "T" ∧
    (extractTypeInfo (.star (.sliceT (.ident "T")))).baseType ≠ "T" ∧
    extractBaseTypeV "[]*T" ≠ "T" := by decide

/-- C9 (amended): the classification records exactly one wrapper level — a
pointer form is PointerOf, a sequence form is SequenceOf, anything else
Scalar, never both — and the recorded base type name is the rendering of
the type under the single outermost wrapper; it equals the innermost
scalar name whenever at most one wrapper level is present, but for
pointer-of-sequence texts such as `*[]T` it is `[]T` and for
sequence-of-pointer texts such as `[]*T` it is `*T` (the validator string
helper strips one pointer sigil then one sequence sigil, giving `T` for
`*[]T` but `*T` for `[]*T`). -/
theorem C9_one_wrapper_classification (e : AExpr) :
    ((extractTypeInfo e).isPointer = true ↔ ∃ x, e = .star x) ∧
    ((extractTypeInfo e).isSlice = true ↔ ∃ x, e = .sliceT x) ∧
    (¬((extractTypeInfo e).isPointer = true ∧ (extractTypeInfo e).isSlice = true)) ∧
    (∀ x, e = .star x → (extractTypeInfo e).baseType = exprToString x ∧
      (extractTypeInfo e).type = "*" ++ exprToString x) ∧
    (∀ x, e = .sliceT x → (extractTypeInfo e).baseType = exprToString x ∧
      (extractTypeInfo e).type = "[]" ++ exprToString x) ∧
    ((extractTypeInfo e).isPointer = false → (extractTypeInfo e).isSlice = false →
      (extractTypeInfo e).baseType = exprToString e) ∧
    (∀ s, e = .star (.ident s) → (extractTypeInfo e).baseType = s) ∧
    (∀ s, e = .sliceT (.ident s) → (extractTypeInfo e).baseType = s) ∧
    (extractBaseTypeV "*[]T" = "T" ∧ extractBaseTypeV "[]*T" = "*T") := by
  refine ⟨?_, ?_, ?_, ?_, ?_, ?_, ?_, ?_, by decide⟩ <;>
    (cases e <;> simp [extractTypeInfo, exprToString]) <;>
    (rintro s rfl; simp [exprToString])

/-- C9 witness: a single pointer wrapper over a scalar records the scalar
name as base type. -/
theorem C9_one_wrapper_classification_witness :
    (extractTypeInfo (.star (.ident "T"))).baseType = "T" :=
  (C9_one_wrapper_classification (.star (.ident "T"))).2.2.2.2.2.2.1 "T" rfl

end AMap

namespace AMap

theorem fieldStep_snd_eq (cm : String → Option ConverterDef)
    (functions : List (String × FunctionInfo)) (source : SourceStruct) (f : FieldInfo) :
    (fieldStep cm functions source f).2 =
      if ignSummaryPred cm functions source f then [f.name] else [] := by
  unfold fieldStep ignSummaryPred
  by_cases hi : f.ignore
  · simp [hi]
  · cases hl : lookupField source (resolveSourceFieldName f) with
    | none => simp [hi, hl]
    | some sf =>
      by_cases hn : f.nestedDTO = ""
      · by_cases hc : f.converterTag = ""
        · simp [hi, hl, hn, hc]
        · cases hcm : cm f.converterTag with
          | some conv => simp [hi, hl, hn, hc, hcm]
          | none =>
            cases hfn : mapLookup Prod.fst functions f.converterTag with
            | none => simp [hi, hl, hn, hc, hcm, hfn]
            | some p => simp [hi, hl, hn, hc, hcm, hfn]
      · simp [hi, hl, hn]

/-- C8: every generated method body begins with the nil-source guard
returning the error `source is nil`, ends with an explicit success return
as its final statement, and fields marked ignored contribute no statements
while being recorded in the ignored-fields summary (surfaced by
`GenerateMapFromMethod` as the `Ignored fields:` comment). -/
theorem C8_method_body_contract (dto : DTOMapping) (source : SourceStruct) (cfg : Config)
    (functions : List (String × FunctionInfo)) :
    (buildMethodBody dto source cfg functions).1.head? =
      some (.ifStmt (.isNil (.idE "src")) [.retNew "source is nil"]) ∧
    (buildMethodBody dto source cfg functions).1.getLast? = some .retNil ∧
    (∀ f ∈ dto.fields, f.ignore = true →
      fieldStep (mapLookup ConverterDef.name cfg.converters) functions source f
        = ([], [f.name]) ∧
      f.name ∈ (buildMethodBody dto source cfg functions).2) ∧
    ((buildMethodBody dto source cfg functions).2 ≠ [] →
      (GenerateMapFromMethod dto source cfg functions).ignoredComment =
        some ("Ignored fields: " ++ String.intercalate ", "
          (buildMethodBody dto source cfg functions).2)) := by
  refine ⟨rfl, ?_, ?_, ?_⟩
  · have h : (buildMethodBody dto source cfg functions).1
        = ([.ifStmt (.isNil (.idE "src")) [.retNew "source is nil"], .lineBrk]
            ++ dto.fields.flatMap
                (fun f => (fieldStep (mapLookup ConverterDef.name cfg.converters)
                  functions source f).1)
            ++ [.lineBrk]) ++ [.retNil] := by
      simp [buildMethodBody]
    rw [h, List.getLast?_concat]
  · intro f hf hig
    have hstep : fieldStep (mapLookup ConverterDef.name cfg.converters) functions source f
        = ([], [f.name]) := by
      simp [fieldStep, hig]
    refine ⟨hstep, ?_⟩
    have : f.name ∈ (fieldStep (mapLookup ConverterDef.name cfg.converters)
        functions source f).2 := by
      rw [hstep]
      simp
    exact List.mem_flatMap.mpr ⟨f, hf, this⟩
  · intro hne
    have : 0 < (buildMethodBody dto source cfg functions).2.length :=
      List.length_pos.mpr hne
    simp [GenerateMapFromMethod, this]

/-- C8 witness: a two-field DTO whose second field is ignored: the guard
leads, `return nil` ends, the ignored field contributes nothing and is
summarised. -/
theorem C8_method_body_contract_witness :
    fieldStep (mapLookup ConverterDef.name ([] : List ConverterDef)) []
      ⟨"S", [("ID", ⟨"int64", false, false, "int64"⟩)]⟩
      ⟨"Skip", "int", "", "", "", true, ""⟩ = ([], ["Skip"]) ∧
    "Skip" ∈ (buildMethodBody
      ⟨"T", ["S"], [⟨"ID", "int64", "", "", "", false, ""⟩,
        ⟨"Skip", "int", "", "", "", true, ""⟩], false⟩
      ⟨"S", [("ID", ⟨"int64", false, false, "int64"⟩)]⟩
      ⟨"out.go", [], false⟩ []).2 :=
  (C8_method_body_contract
      ⟨"T", ["S"], [⟨"ID", "int64", "", "", "", false, ""⟩,
        ⟨"Skip", "int", "", "", "", true, ""⟩], false⟩
      ⟨"S", [("ID", ⟨"int64", false, false, "int64"⟩)]⟩
      ⟨"out.go", [], false⟩ []).2.2.1
    ⟨"Skip", "int", "", "", "", true, ""⟩ (by decide) rfl

/-- C10: the ignored-fields summary lists exactly the fields tagged
ignored, the non-ignored fields whose resolved source field does not
exist, and the converter-tagged fields whose converter resolves to no
known converter definition or function; the latter two kinds contribute
only an explanatory comment, and the method body still contains every
field's contribution in order between the guard and the success return. -/
theorem C10_ignored_summary (dto : DTOMapping) (source : SourceStruct) (cfg : Config)
    (functions : List (String × FunctionInfo)) :
    (buildMethodBody dto source cfg functions).2 =
      (dto.fields.filter
        (ignSummaryPred (mapLookup ConverterDef.name cfg.converters) functions source)).map
        (fun f => f.name) ∧
    (∀ f ∈ dto.fields, f.ignore = false →
      lookupField source (resolveSourceFieldName f) = none →
      (fieldStep (mapLookup ConverterDef.name cfg.converters) functions source f).1 =
        [.comment (f.name ++ ": not found in source, will be zero value")]) ∧
    (∀ f ∈ dto.fields, f.ignore = false →
      (lookupField source (resolveSourceFieldName f)).isSome = true →
      f.nestedDTO = "" → f.converterTag ≠ "" →
      mapLookup ConverterDef.name cfg.converters f.converterTag = none →
      mapLookup Prod.fst functions f.converterTag = none →
      (fieldStep (mapLookup ConverterDef.name cfg.converters) functions source f).1 =
        [.comment (f.name ++ ": converter \x27" ++ f.converterTag ++ "\x27 not found")]) ∧
    (buildMethodBody dto source cfg functions).1 =
      [.ifStmt (.isNil (.idE "src")) [.retNew "source is nil"], .lineBrk]
        ++ dto.fields.flatMap
            (fun f => (fieldStep (mapLookup ConverterDef.name cfg.converters) functions
              source f).1)
        ++ [.lineBrk, .retNil] := by
  refine ⟨?_, ?_, ?_, rfl⟩
  · show (dto.fields.flatMap _) = _
    exact flatMap_if_singleton _ _ _ _
      (fieldStep_snd_eq (mapLookup ConverterDef.name cfg.converters) functions source)
  · intro f _ hig hl
    simp [fieldStep, hig, hl]
  · intro f _ hig hsome hn hc hcm hfn
    obtain ⟨sf, hsf⟩ := Option.isSome_iff_exists.mp hsome
    simp [fieldStep, hig, hsf, hn, hc, hcm, hfn]

/-- C10 witness: a non-ignored field missing from the source contributes
only the explanatory comment. -/
theorem C10_ignored_summary_witness :
    (fieldStep (mapLookup ConverterDef.name ([] : List ConverterDef)) [] ⟨"S", []⟩
      ⟨"Foo", "int", "", "", "", false, ""⟩).1 =
      [.comment ("Foo" ++ ": not found in source, will be zero value")] :=
  (C10_ignored_summary ⟨"T", ["S"], [⟨"Foo", "int", "", "", "", false, ""⟩], false⟩
      ⟨"S", []⟩ ⟨"out.go", [], false⟩ []).2.1
    ⟨"Foo", "int", "", "", "", false, ""⟩ (by decide) rfl rfl

end AMap

namespace AMap

/-- C1 counterexample: for a Pointer-to-Pointer direct mapping with equal
base types (field `F` of type `*int` from source field `S` of type
`*int`), the emitted code is not the guarded deref-and-rewrap shape the
spec table prescribes — it is a plain (aliasing) pointer assignment with
no nil guard. -/
theorem C1_counterexample :
    stripComments (buildFieldMapping ⟨"F", "*int", "", "", "", false, ""⟩
        ⟨"*int", true, false, "int"⟩ "S") ≠ directSpecStmts "F" "S" true true := by
  decide

/-- C1 (amended): for a Direct-plan field whose base types match, the
emitted code follows the shape-adaptation table in three of the four
cells — Scalar to Scalar is a plain value assignment; Scalar to Pointer
takes the address of a defensive local copy and never takes the address
of the source field; Pointer to Scalar dereferences only inside a
source-non-nil guard and leaves the target untouched (its zero value)
when the source pointer is nil — while Pointer to Pointer emits a plain
unguarded assignment that copies the source pointer itself (aliasing it),
so a nil source still yields a nil target and a non-nil source yields the
same pointer rather than a re-wrapped copy. -/
theorem C1_direct_plan_table (fld : FieldInfo) (sf : FieldTypeInfo) (srcN : String)
    (hbase : ExtractBaseType fld.type = sf.baseType) :
    (sf.isPointer = false → goStartsWith fld.type "*" = false →
      stripComments (buildFieldMapping fld sf srcN) = directSpecStmts fld.name srcN false false) ∧
    (sf.isPointer = false → goStartsWith fld.type "*" = true →
      stripComments (buildFieldMapping fld sf srcN) = directSpecStmts fld.name srcN false true ∧
      takesAddrOfSrc (buildFieldMapping fld sf srcN) = false ∧
      (∀ (o : Oracles) (env : GoEnv) (x : GoVal),
        lookupAssoc env.src srcN = some x →
        ∃ env2, execStmts o (buildFieldMapping fld sf srcN) env = .ok env2 ∧
          lookupAssoc env2.dst fld.name = some (.ptrV (some x)))) ∧
    (sf.isPointer = true → goStartsWith fld.type "*" = false →
      stripComments (buildFieldMapping fld sf srcN) = directSpecStmts fld.name srcN true false ∧
      (∀ (o : Oracles) (env : GoEnv),
        lookupAssoc env.src srcN = some (.ptrV none) →
        execStmts o (buildFieldMapping fld sf srcN) env = .ok env)) ∧
    (sf.isPointer = true → goStartsWith fld.type "*" = true →
      stripComments (buildFieldMapping fld sf srcN) = [.assign (dstF fld.name) (srcF srcN)] ∧
      (∀ (o : Oracles) (env : GoEnv) (p : Option GoVal),
        lookupAssoc env.src srcN = some (.ptrV p) →
        ∃ env2, execStmts o (buildFieldMapping fld sf srcN) env = .ok env2 ∧
          lookupAssoc env2.dst fld.name = some (.ptrV p))) := by
  refine ⟨?_, ?_, ?_, ?_⟩
  · intro hp hd
    simp [buildFieldMapping, hbase, hp, hd, stripComments, directSpecStmts]
  · intro hp hd
    have hshape : buildFieldMapping fld sf srcN =
        [.blockS [.declAssign "v" (srcF srcN),
                  .assign (dstF fld.name) (.addrOf (.idE "v"))]] := by
      simp [buildFieldMapping, hbase, hp, hd]
    refine ⟨by simp [hshape, stripComments, directSpecStmts], ?_, ?_⟩
    · simp [hshape, takesAddrOfSrc, takesAddrOfSrcS, takesAddrOfSrcE, srcF, dstF]
    · intro o env x hx
      simp [hshape, execStmts, execStmt, evalExpr, writeLhs, hx, srcF, dstF,
        lookupAssoc_setAssoc_self]
  · intro hp hd
    have hshape : buildFieldMapping fld sf srcN =
        [.ifStmt (.notNil (srcF srcN))
           [.assign (dstF fld.name) (.deref (srcF srcN))],
         .comment ("// " ++ fld.name ++ ": nil pointer will result in zero value")] := by
      simp [buildFieldMapping, hbase, hp, hd]
    refine ⟨by simp [hshape, stripComments, directSpecStmts], ?_⟩
    intro o env hx
    simp [hshape, execStmts, execStmt, evalCond, evalExpr, hx, srcF, dstF]
  · intro hp hd
    have hshape : buildFieldMapping fld sf srcN =
        [.assign (dstF fld.name) (srcF srcN)] := by
      simp [buildFieldMapping, hbase, hp, hd]
    refine ⟨by simp [hshape, stripComments], ?_⟩
    intro o env p hx
    simp [hshape, execStmts, execStmt, evalExpr, writeLhs, hx, srcF, dstF,
      lookupAssoc_setAssoc_self]

/-- C1 witness: a concrete Scalar-to-Pointer direct mapping (`*int` target
field `F` from `int` source field `S` holding 7) emits the defensive-copy
shape and stores a fresh pointer to the copied value. -/
theorem C1_direct_plan_table_witness :
    stripComments (buildFieldMapping ⟨"F", "*int", "", "", "", false, ""⟩
        ⟨"int", false, false, "int"⟩ "S") = directSpecStmts "F" "S" false true ∧
    ∃ env2, execStmts oTriv (buildFieldMapping ⟨"F", "*int", "", "", "", false, ""⟩
        ⟨"int", false, false, "int"⟩ "S") ⟨[("S", .intV 7)], [("F", .ptrV none)], []⟩
        = .ok env2 ∧
      lookupAssoc env2.dst "F" = some (.ptrV (some (.intV 7))) := by
  have h := (C1_direct_plan_table ⟨"F", "*int", "", "", "", false, ""⟩
      ⟨"int", false, false, "int"⟩ "S" (by decide)).2.1 rfl (by decide)
  exact ⟨h.1, h.2.2 oTriv ⟨[("S", .intV 7)], [("F", .ptrV none)], []⟩ (.intV 7) rfl⟩

end AMap

namespace AMap

theorem except_id_match (x : Except GoAbort GoEnv) :
    (match x with
     | Except.ok e => (Except.ok e : Except GoAbort GoEnv)
     | Except.error a => Except.error a) = x := by
  cases x <;> rfl

theorem execLoop_lenA (o : Oracles) (f m : String) (xs : List GoVal) :
    ∀ (k : Nat) (env : GoEnv) (acc : List GoVal) (env2 : GoEnv),
    lookupAssoc env.dst f = some (.sliceV acc) →
    execLoop o "i" "item"
      [.varDeclErr "err",
       .methodCall "err" (.indexE (dstF f) (.idE "i")) m (.addrOf (.idE "item")),
       nestedSliceErrCheck f] xs k env = .ok env2 →
    ∃ ds, lookupAssoc env2.dst f = some (.sliceV ds) ∧ ds.length = acc.length := by
  induction xs with
  | nil =>
    intro k env acc env2 h hexec
    simp only [execLoop, Except.ok.injEq] at hexec
    exact ⟨acc, hexec ▸ h, rfl⟩
  | cons x rest ih =>
    intro k env acc env2 h hexec
    simp only [execLoop] at hexec
    cases hm : o.mfn m x with
    | ok nv =>
      simp [execStmts, execStmt, evalExpr, evalCond, writeRecv, writeLhs, hm, h,
        lookupAssoc_setAssoc_self, lookupAssoc_setAssoc_ne, dstF, srcF,
        nestedSliceErrCheck] at hexec
      obtain ⟨ds, hds, hlen⟩ := ih (k + 1) _ (acc.set k nv) env2
        (by simp [lookupAssoc_setAssoc_self]) hexec
      exact ⟨ds, hds, by simpa [List.length_set] using hlen⟩
    | error e =>
      simp [execStmts, execStmt, evalExpr, evalCond, writeRecv, hm,
        lookupAssoc_setAssoc_self, lookupAssoc_setAssoc_ne, dstF,
        nestedSliceErrCheck] at hexec

end AMap

namespace AMap

theorem execLoop_lenB (o : Oracles) (f m ty : String) (xs : List GoVal) :
    ∀ (k : Nat) (env : GoEnv) (acc : List GoVal) (env2 : GoEnv),
    (∀ x ∈ xs, ∃ p, x = GoVal.ptrV p) →
    lookupAssoc env.dst f = some (.sliceV acc) →
    execLoop o "i" "item"
      [.ifStmt (.notNil (.idE "item"))
         [.declAssign "nested" (.addrOf (.structLit ty)),
          .varDeclErr "err",
          .methodCall "err" (.idE "nested") m (.idE "item"),
          nestedSliceErrCheck f,
          .assign (.indexE (dstF f) (.idE "i")) (.idE "nested")]] xs k env = .ok env2 →
    ∃ ds, lookupAssoc env2.dst f = some (.sliceV ds) ∧ ds.length = acc.length := by
  induction xs with
  | nil =>
    intro k env acc env2 _ h hexec
    simp only [execLoop, Except.ok.injEq] at hexec
    exact ⟨acc, hexec ▸ h, rfl⟩
  | cons x rest ih =>
    intro k env acc env2 hptr h hexec
    obtain ⟨p, rfl⟩ := hptr x (by simp)
    simp only [execLoop] at hexec
    cases p with
    | none =>
      simp [execStmts, execStmt, evalCond, evalExpr,
        lookupAssoc_setAssoc_self, lookupAssoc_setAssoc_ne] at hexec
      exact ih (k + 1) _ acc env2 (fun y hy => hptr y (by simp [hy])) (by simpa using h) hexec
    | some sv =>
      cases hm : o.mfn m sv with
      | ok nv =>
        simp [execStmts, execStmt, evalExpr, evalCond, writeRecv, writeLhs, hm, h,
          lookupAssoc_setAssoc_self, lookupAssoc_setAssoc_ne, dstF,
          nestedSliceErrCheck] at hexec
        obtain ⟨ds, hds, hlen⟩ := ih (k + 1) _ (acc.set k (.ptrV (some nv))) env2
          (fun y hy => hptr y (by simp [hy])) (by simp [lookupAssoc_setAssoc_self]) hexec
        exact ⟨ds, hds, by simpa [List.length_set] using hlen⟩
      | error e =>
        simp [execStmts, execStmt, evalExpr, evalCond, writeRecv, hm,
          lookupAssoc_setAssoc_self, lookupAssoc_setAssoc_ne,
          nestedSliceErrCheck] at hexec

theorem execLoop_lenC (o : Oracles) (f m ty : String) (xs : List GoVal) :
    ∀ (k : Nat) (env : GoEnv) (acc : List GoVal) (env2 : GoEnv),
    lookupAssoc env.dst f = some (.sliceV acc) →
    execLoop o "i" "item"
      [.declAssign "nested" (.addrOf (.structLit ty)),
       .varDeclErr "err",
       .methodCall "err" (.idE "nested") m (.addrOf (.idE "item")),
       nestedSliceErrCheck f,
       .assign (.indexE (dstF f) (.idE "i")) (.idE "nested")] xs k env = .ok env2 →
    ∃ ds, lookupAssoc env2.dst f = some (.sliceV ds) ∧ ds.length = acc.length := by
  induction xs with
  | nil =>
    intro k env acc env2 h hexec
    simp only [execLoop, Except.ok.injEq] at hexec
    exact ⟨acc, hexec ▸ h, rfl⟩
  | cons x rest ih =>
    intro k env acc env2 h hexec
    simp only [execLoop] at hexec
    cases hm : o.mfn m x with
    | ok nv =>
      simp [execStmts, execStmt, evalExpr, evalCond, writeRecv, writeLhs, hm, h,
        lookupAssoc_setAssoc_self, lookupAssoc_setAssoc_ne, dstF,
        nestedSliceErrCheck] at hexec
      obtain ⟨ds, hds, hlen⟩ := ih (k + 1) _ (acc.set k (.ptrV (some nv))) env2
        (by simp [lookupAssoc_setAssoc_self]) hexec
      exact ⟨ds, hds, by simpa [List.length_set] using hlen⟩
    | error e =>
      simp [execStmts, execStmt, evalExpr, evalCond, writeRecv, hm,
        lookupAssoc_setAssoc_self, lookupAssoc_setAssoc_ne,
        nestedSliceErrCheck] at hexec

theorem execLoop_lenD (o : Oracles) (f m ty : String) (xs : List GoVal) :
    ∀ (k : Nat) (env : GoEnv) (acc : List GoVal) (env2 : GoEnv),
    (∀ x ∈ xs, ∃ p, x = GoVal.ptrV p) →
    lookupAssoc env.dst f = some (.sliceV acc) →
    execLoop o "i" "item"
      [.ifStmt (.notNil (.idE "item"))
         [.varDecl "nested" ty,
          .varDeclErr "err",
          .methodCall "err" (.idE "nested") m (.idE "item"),
          nestedSliceErrCheck f,
          .assign (dstF f) (.appendE (dstF f) (.idE "nested"))]] xs k env = .ok env2 →
    ∃ ds, lookupAssoc env2.dst f = some (.sliceV ds) ∧
      ds.length = acc.length + (xs.filter isNonNilPtr).length := by
  induction xs with
  | nil =>
    intro k env acc env2 _ h hexec
    simp only [execLoop, Except.ok.injEq] at hexec
    exact ⟨acc, hexec ▸ h, by simp⟩
  | cons x rest ih =>
    intro k env acc env2 hptr h hexec
    obtain ⟨p, rfl⟩ := hptr x (by simp)
    simp only [execLoop] at hexec
    cases p with
    | none =>
      simp [execStmts, execStmt, evalCond, evalExpr,
        lookupAssoc_setAssoc_self, lookupAssoc_setAssoc_ne] at hexec
      obtain ⟨ds, hds, hlen⟩ :=
        ih (k + 1) _ acc env2 (fun y hy => hptr y (by simp [hy])) (by simpa using h) hexec
      exact ⟨ds, hds, by simp [hlen, List.filter_cons, isNonNilPtr]⟩
    | some sv =>
      cases hm : o.mfn m sv with
      | ok nv =>
        simp [execStmts, execStmt, evalExpr, evalCond, writeRecv, writeLhs, hm, h,
          lookupAssoc_setAssoc_self, lookupAssoc_setAssoc_ne, dstF,
          nestedSliceErrCheck] at hexec
        obtain ⟨ds, hds, hlen⟩ := ih (k + 1) _ (acc ++ [nv]) env2
          (fun y hy => hptr y (by simp [hy])) (by simp [lookupAssoc_setAssoc_self]) hexec
        refine ⟨ds, hds, ?_⟩
        simp [List.filter_cons, isNonNilPtr] at hlen ⊢
        omega
      | error e =>
        simp [execStmts, execStmt, evalExpr, evalCond, writeRecv, hm,
          lookupAssoc_setAssoc_self, lookupAssoc_setAssoc_ne,
          nestedSliceErrCheck] at hexec

end AMap

namespace AMap


theorem execLoop_okD (o : Oracles) (f m ty : String) (xs : List GoVal)
    (hok : ∀ v, ∃ w, o.mfn m v = .ok w) :
    ∀ (k : Nat) (env : GoEnv) (acc : List GoVal),
    (∀ x ∈ xs, ∃ p, x = GoVal.ptrV p) →
    lookupAssoc env.dst f = some (.sliceV acc) →
    ∃ env2, execLoop o "i" "item"
      [.ifStmt (.notNil (.idE "item"))
         [.varDecl "nested" ty,
          .varDeclErr "err",
          .methodCall "err" (.idE "nested") m (.idE "item"),
          nestedSliceErrCheck f,
          .assign (dstF f) (.appendE (dstF f) (.idE "nested"))]] xs k env = .ok env2 := by
  induction xs with
  | nil =>
    intro k env acc _ _
    exact ⟨env, by simp [execLoop]⟩
  | cons x rest ih =>
    intro k env acc hptr h
    obtain ⟨p, rfl⟩ := hptr x (by simp)
    cases p with
    | none =>
      obtain ⟨env2, he⟩ := ih (k + 1)
        { env with locals := setAssoc (setAssoc env.locals "i" (.intV k)) "item" (.ptrV none) }
        acc (fun y hy => hptr y (by simp [hy])) (by simpa using h)
      refine ⟨env2, ?_⟩
      simp only [execLoop]
      simpa [execStmts, execStmt, evalCond, evalExpr,
        lookupAssoc_setAssoc_self, lookupAssoc_setAssoc_ne] using he
    | some sv =>
      obtain ⟨nv, hm⟩ := hok sv
      obtain ⟨env2, he⟩ := ih (k + 1)
        { src := env.src,
          dst := setAssoc env.dst f (.sliceV (acc ++ [nv])),
          locals := setAssoc (setAssoc (setAssoc (setAssoc
            (setAssoc (setAssoc env.locals "i" (.intV k)) "item" (.ptrV (some sv)))
            "nested" (.structV ty 0)) "err" (.errV none)) "nested" nv) "err" (.errV none) }
        (acc ++ [nv]) (fun y hy => hptr y (by simp [hy]))
        (by simp [lookupAssoc_setAssoc_self])
      refine ⟨env2, ?_⟩
      simp only [execLoop]
      simpa [execStmts, execStmt, evalExpr, evalCond, writeRecv, writeLhs, hm, h,
        lookupAssoc_setAssoc_self, lookupAssoc_setAssoc_ne, dstF,
        nestedSliceErrCheck] using he

/-- C2: for nested slice-to-slice mappings, in the pointer-element to
value-element case the destination is created with length 0 and capacity
`len(source)` and a mapped value is appended only for non-nil source
elements, so on successful completion the destination length equals the
count of non-nil source elements and is at most `len(source)`; in the
other three element-shape combinations the destination is pre-sized with
`make` to `len(source)` and filled index-aligned, so its length always
equals `len(source)`. -/
theorem C2_nested_slice_lengths (fld : FieldInfo) (sf : FieldTypeInfo)
    (srcN dtoTypeName methodName : String) :
    (goStartsWith (goTrimPre sf.type "[]") "*" = false →
     goStartsWith (goTrimPre fld.type "[]") "*" = false →
      buildNestedSliceMapping fld sf srcN dtoTypeName methodName =
        [.blockS
           [.assign (dstF fld.name)
              (.makeSlice false (goTrimPre dtoTypeName "*") (.lenE (srcF srcN))),
            .forRange "i" "item" (srcF srcN)
              [.varDeclErr "err",
               .methodCall "err" (.indexE (dstF fld.name) (.idE "i")) methodName
                 (.addrOf (.idE "item")),
               nestedSliceErrCheck fld.name]]] ∧
      (∀ (o : Oracles) (env : GoEnv) (xs : List GoVal) (env2 : GoEnv),
        lookupAssoc env.src srcN = some (.sliceV xs) →
        execStmts o (buildNestedSliceMapping fld sf srcN dtoTypeName methodName) env
          = .ok env2 →
        ∃ ds, lookupAssoc env2.dst fld.name = some (.sliceV ds) ∧
          ds.length = xs.length)) ∧
    (goStartsWith (goTrimPre sf.type "[]") "*" = true →
     goStartsWith (goTrimPre fld.type "[]") "*" = true →
      buildNestedSliceMapping fld sf srcN dtoTypeName methodName =
        [.blockS
           [.assign (dstF fld.name)
              (.makeSlice true (goTrimPre dtoTypeName "*") (.lenE (srcF srcN))),
            .forRange "i" "item" (srcF srcN)
              [.ifStmt (.notNil (.idE "item"))
                 [.declAssign "nested" (.addrOf (.structLit (goTrimPre dtoTypeName "*"))),
                  .varDeclErr "err",
                  .methodCall "err" (.idE "nested") methodName (.idE "item"),
                  nestedSliceErrCheck fld.name,
                  .assign (.indexE (dstF fld.name) (.idE "i")) (.idE "nested")]]]] ∧
      (∀ (o : Oracles) (env : GoEnv) (xs : List GoVal) (env2 : GoEnv),
        (∀ x ∈ xs, ∃ p, x = GoVal.ptrV p) →
        lookupAssoc env.src srcN = some (.sliceV xs) →
        execStmts o (buildNestedSliceMapping fld sf srcN dtoTypeName methodName) env
          = .ok env2 →
        ∃ ds, lookupAssoc env2.dst fld.name = some (.sliceV ds) ∧
          ds.length = xs.length)) ∧
    (goStartsWith (goTrimPre sf.type "[]") "*" = false →
     goStartsWith (goTrimPre fld.type "[]") "*" = true →
      buildNestedSliceMapping fld sf srcN dtoTypeName methodName =
        [.blockS
           [.assign (dstF fld.name)
              (.makeSlice true (goTrimPre dtoTypeName "*") (.lenE (srcF srcN))),
            .forRange "i" "item" (srcF srcN)
              [.declAssign "nested" (.addrOf (.structLit (goTrimPre dtoTypeName "*"))),
               .varDeclErr "err",
               .methodCall "err" (.idE "nested") methodName (.addrOf (.idE "item")),
               nestedSliceErrCheck fld.name,
               .assign (.indexE (dstF fld.name) (.idE "i")) (.idE "nested")]]] ∧
      (∀ (o : Oracles) (env : GoEnv) (xs : List GoVal) (env2 : GoEnv),
        lookupAssoc env.src srcN = some (.sliceV xs) →
        execStmts o (buildNestedSliceMapping fld sf srcN dtoTypeName methodName) env
          = .ok env2 →
        ∃ ds, lookupAssoc env2.dst fld.name = some (.sliceV ds) ∧
          ds.length = xs.length)) ∧
    (goStartsWith (goTrimPre sf.type "[]") "*" = true →
     goStartsWith (goTrimPre fld.type "[]") "*" = false →
      buildNestedSliceMapping fld sf srcN dtoTypeName methodName =
        [.blockS
           [.assign (dstF fld.name)
              (.makeSliceLC false (goTrimPre dtoTypeName "*") (.litInt 0)
                (.lenE (srcF srcN))),
            .forRange "i" "item" (srcF srcN)
              [.ifStmt (.notNil (.idE "item"))
                 [.varDecl "nested" (goTrimPre dtoTypeName "*"),
                  .varDeclErr "err",
                  .methodCall "err" (.idE "nested") methodName (.idE "item"),
                  nestedSliceErrCheck fld.name,
                  .assign (dstF fld.name) (.appendE (dstF fld.name) (.idE "nested"))]]]] ∧
      (∀ (o : Oracles) (env : GoEnv) (xs : List GoVal) (env2 : GoEnv),
        (∀ x ∈ xs, ∃ p, x = GoVal.ptrV p) →
        lookupAssoc env.src srcN = some (.sliceV xs) →
        execStmts o (buildNestedSliceMapping fld sf srcN dtoTypeName methodName) env
          = .ok env2 →
        ∃ ds, lookupAssoc env2.dst fld.name = some (.sliceV ds) ∧
          ds.length = (xs.filter isNonNilPtr).length ∧ ds.length ≤ xs.length) ∧
      (∀ (o : Oracles) (env : GoEnv) (xs : List GoVal),
        (∀ v, ∃ w, o.mfn methodName v = .ok w) →
        (∀ x ∈ xs, ∃ p, x = GoVal.ptrV p) →
        lookupAssoc env.src srcN = some (.sliceV xs) →
        ∃ env2, execStmts o (buildNestedSliceMapping fld sf srcN dtoTypeName methodName)
          env = .ok env2)) := by
  refine ⟨?_, ?_, ?_, ?_⟩
  · intro hs hd
    refine ⟨by simp [buildNestedSliceMapping, hs, hd], ?_⟩
    intro o env xs env2 hx hexec
    simp [buildNestedSliceMapping, hs, hd, execStmts, execStmt, evalExpr, writeLhs,
      hx, srcF, dstF] at hexec
    rw [except_id_match, except_id_match] at hexec
    obtain ⟨ds, hds, hlen⟩ := execLoop_lenA o fld.name methodName xs 0 _
      (List.replicate xs.length (zeroElem false (goTrimPre dtoTypeName "*"))) env2
      (by simp [lookupAssoc_setAssoc_self]) hexec
    exact ⟨ds, hds, by simpa using hlen⟩
  · intro hs hd
    refine ⟨by simp [buildNestedSliceMapping, hs, hd], ?_⟩
    intro o env xs env2 hptr hx hexec
    simp [buildNestedSliceMapping, hs, hd, execStmts, execStmt, evalExpr, writeLhs,
      hx, srcF, dstF] at hexec
    rw [except_id_match, except_id_match] at hexec
    obtain ⟨ds, hds, hlen⟩ := execLoop_lenB o fld.name methodName
      (goTrimPre dtoTypeName "*") xs 0 _
      (List.replicate xs.length (zeroElem true (goTrimPre dtoTypeName "*"))) env2 hptr
      (by simp [lookupAssoc_setAssoc_self]) hexec
    exact ⟨ds, hds, by simpa using hlen⟩
  · intro hs hd
    refine ⟨by simp [buildNestedSliceMapping, hs, hd], ?_⟩
    intro o env xs env2 hx hexec
    simp [buildNestedSliceMapping, hs, hd, execStmts, execStmt, evalExpr, writeLhs,
      hx, srcF, dstF] at hexec
    rw [except_id_match, except_id_match] at hexec
    obtain ⟨ds, hds, hlen⟩ := execLoop_lenC o fld.name methodName
      (goTrimPre dtoTypeName "*") xs 0 _
      (List.replicate xs.length (zeroElem true (goTrimPre dtoTypeName "*"))) env2
      (by simp [lookupAssoc_setAssoc_self]) hexec
    exact ⟨ds, hds, by simpa using hlen⟩
  · intro hs hd
    refine ⟨by simp [buildNestedSliceMapping, hs, hd], ?_, ?_⟩
    · intro o env xs env2 hptr hx hexec
      simp [buildNestedSliceMapping, hs, hd, execStmts, execStmt, evalExpr, writeLhs,
        hx, srcF, dstF] at hexec
      rw [except_id_match, except_id_match] at hexec
      obtain ⟨ds, hds, hlen⟩ := execLoop_lenD o fld.name methodName
        (goTrimPre dtoTypeName "*") xs 0 _ [] env2 hptr
        (by simp [lookupAssoc_setAssoc_self]) hexec
      simp only [List.length_nil, Nat.zero_add] at hlen
      have hle := List.length_filter_le isNonNilPtr xs
      exact ⟨ds, hds, hlen, by omega⟩
    · intro o env xs hok hptr hx
      obtain ⟨env2, he⟩ := execLoop_okD o fld.name methodName
        (goTrimPre dtoTypeName "*") xs hok 0
        { env with dst := setAssoc env.dst fld.name (.sliceV []) } [] hptr
        (by simp [lookupAssoc_setAssoc_self])
      refine ⟨env2, ?_⟩
      simp [buildNestedSliceMapping, hs, hd, execStmts, execStmt, evalExpr, writeLhs,
        hx, srcF, dstF]
      rw [except_id_match, except_id_match]
      exact he

end AMap

namespace AMap

/-- C2 witness: mapping a concrete `[]*Item` with one non-nil and one nil
element into `[]ItemDTO` succeeds and compacts the destination to length
1 (the count of non-nil source elements, at most the source length 2). -/
theorem C2_nested_slice_lengths_witness :
    ∃ env2 ds,
      execStmts oTriv
        (buildNestedSliceMapping ⟨"Items", "[]ItemDTO", "", "", "", false, "ItemDTO"⟩
          ⟨"[]*Item", false, true, "Item"⟩ "Items" "ItemDTO" "MapFromItem")
        ⟨[("Items", .sliceV [.ptrV (some (.intV 5)), .ptrV none])], [], []⟩ = .ok env2 ∧
      lookupAssoc env2.dst "Items" = some (.sliceV ds) ∧
      ds.length = 1 ∧ ds.length ≤ 2 := by
  have h := (C2_nested_slice_lengths ⟨"Items", "[]ItemDTO", "", "", "", false, "ItemDTO"⟩
      ⟨"[]*Item", false, true, "Item"⟩ "Items" "ItemDTO" "MapFromItem").2.2.2
      (by decide) (by decide)
  have hptr : ∀ x ∈ [GoVal.ptrV (some (.intV 5)), GoVal.ptrV none], ∃ p, x = GoVal.ptrV p := by
    intro x hx
    simp at hx
    rcases hx with rfl | rfl
    · exact ⟨some (.intV 5), rfl⟩
    · exact ⟨none, rfl⟩
  obtain ⟨env2, hexec⟩ := h.2.2 oTriv
    ⟨[("Items", .sliceV [.ptrV (some (.intV 5)), .ptrV none])], [], []⟩
    [.ptrV (some (.intV 5)), .ptrV none] (fun v => ⟨v, rfl⟩) hptr rfl
  obtain ⟨ds, hds, hlen, hle⟩ := h.2.1 oTriv
    ⟨[("Items", .sliceV [.ptrV (some (.intV 5)), .ptrV none])], [], []⟩
    [.ptrV (some (.intV 5)), .ptrV none] env2 hptr rfl hexec
  exact ⟨env2, ds, hexec, hds, by simpa [isNonNilPtr] using hlen, hle⟩

theorem someBL_inj {b1 b2 : Bool} {v1 v2 : List String}
    (h : (some (b1, v1) : Option (Bool × List String)) = some (b2, v2)) :
    b1 = b2 ∧ v1 = v2 := by
  have h2 := Option.some.inj h
  exact ⟨congrArg Prod.fst h2, congrArg Prod.snd h2⟩

theorem filter_length_le_of_imp {α : Type} (l : List α) (p q : α → Bool)
    (h : ∀ x ∈ l, p x = true → q x = true) :
    (l.filter p).length ≤ (l.filter q).length := by
  induction l with
  | nil => simp
  | cons a t ih =>
    have ih2 := ih (fun x hx => h x (List.mem_cons_of_mem a hx))
    cases hpa : p a <;> cases hqa : q a
    · simpa [List.filter_cons, hpa, hqa] using ih2
    · simp only [List.filter_cons, hpa, hqa]
      simp only [Bool.false_eq_true, if_false, if_true, List.length_cons]
      exact Nat.le_succ_of_le ih2
    · exact absurd (h a (List.mem_cons_self a t) hpa) (by simp [hqa])
    · simpa [List.filter_cons, hpa, hqa] using ih2

theorem filter_cons_lt (fr : String) (visited : List String) (hnv : fr ∉ visited) :
    ∀ l : List String, fr ∈ l →
      (l.filter fun n => !(decide (n ∈ fr :: visited))).length <
        (l.filter fun n => !(decide (n ∈ visited))).length := by
  intro l
  induction l with
  | nil => intro hmem; simp at hmem
  | cons a t ih =>
    intro hmem
    by_cases ha : a = fr
    · subst ha
      have h1 : (!(decide (a ∈ a :: visited))) = false := by simp
      have h2 : (!(decide (a ∈ visited))) = true := by simp [hnv]
      simp only [List.filter_cons, h1, h2, Bool.false_eq_true, if_false, if_true,
        List.length_cons]
      refine Nat.lt_succ_of_le (filter_length_le_of_imp t _ _ ?_)
      intro x _ hx
      simp only [Bool.not_eq_true', decide_eq_false_iff_not, List.mem_cons, not_or] at hx ⊢
      exact hx.2
    · have hmt : fr ∈ t := by
        rcases List.mem_cons.mp hmem with h | h
        · exact absurd h.symm ha
        · exact h
      have hcond : (a ∈ fr :: visited) ↔ (a ∈ visited) := by simp [List.mem_cons, ha]
      have hc2 : (!(decide (a ∈ fr :: visited))) = (!(decide (a ∈ visited))) :=
        congrArg Bool.not (decide_eq_decide.mpr hcond)
      have hit := ih hmt
      cases hpa : (!(decide (a ∈ visited)))
      · simp only [List.filter_cons, hc2, hpa, Bool.false_eq_true, if_false]
        exact hit
      · simp only [List.filter_cons, hc2, hpa, if_true, List.length_cons]
        omega

theorem unvisitedCount_le_of_subset (dtos : List DTOMapping) {v1 v2 : List String}
    (hsub : v1 ⊆ v2) :
    unvisitedCount dtos v2 ≤ unvisitedCount dtos v1 := by
  unfold unvisitedCount
  apply filter_length_le_of_imp
  intro x _ hx
  simp only [Bool.not_eq_true', decide_eq_false_iff_not] at hx ⊢
  exact fun hmem => hx (hsub hmem)

theorem unvisitedCount_cons_lt (dtos : List DTOMapping) (fr : String) (visited : List String)
    (hfr : fr ∈ dtos.map DTOMapping.name) (hnv : fr ∉ visited) :
    unvisitedCount dtos (fr :: visited) < unvisitedCount dtos visited := by
  unfold unvisitedCount
  exact filter_cons_lt fr visited hnv (dtos.map DTOMapping.name) hfr

theorem unvisitedCount_lt_canonFuel (dtos : List DTOMapping) :
    unvisitedCount dtos [] < canonFuel dtos := by
  unfold unvisitedCount canonFuel
  have h1 := List.length_filter_le (fun n => !(decide (n ∈ ([] : List String))))
    (dtos.map DTOMapping.name)
  have h2 : (dtos.map DTOMapping.name).length = dtos.length := by simp
  omega

theorem foldl_lookup_mem {α : Type} (key : α → String) (k : String) :
    ∀ (l : List α) (acc : Option α) (a : α),
      l.foldl (fun acc c => if key c = k then some c else acc) acc = some a →
      (a ∈ l ∧ key a = k) ∨ acc = some a := by
  intro l
  induction l with
  | nil => intro acc a h; exact Or.inr h
  | cons x t ih =>
    intro acc a h
    simp only [List.foldl_cons] at h
    rcases ih _ a h with ⟨hmem, hkey⟩ | hacc
    · exact Or.inl ⟨List.mem_cons_of_mem x hmem, hkey⟩
    · by_cases hk : key x = k
      · rw [if_pos hk] at hacc
        have hxa : x = a := Option.some.inj hacc
        subst hxa
        exact Or.inl ⟨List.mem_cons_self x t, hk⟩
      · rw [if_neg hk] at hacc
        exact Or.inr hacc

theorem mapLookup_mem_key {α : Type} (key : α → String) (l : List α) (k : String) (a : α)
    (h : mapLookup key l k = some a) : a ∈ l ∧ key a = k := by
  unfold mapLookup at h
  rcases foldl_lookup_mem key k l none a h with hg | hacc
  · exact hg
  · exact absurd hacc (by simp)

theorem mapLookup_name_mem (dtos : List DTOMapping) (fr : String) (dto : DTOMapping)
    (h : mapLookup DTOMapping.name dtos fr = some dto) :
    fr ∈ dtos.map DTOMapping.name := by
  obtain ⟨hmem, hkey⟩ := mapLookup_mem_key DTOMapping.name dtos fr dto h
  exact List.mem_map.mpr ⟨dto, hmem, hkey⟩

theorem reachFields_mono_of (dtos : List DTOMapping) (toN : String) (fuel : Nat)
    (hP : ∀ fr visited b vis2, canReachF dtos toN fuel fr visited = some (b, vis2) →
      visited ⊆ vis2) :
    ∀ flds visited b vis2,
      reachFields dtos toN fuel flds visited = some (b, vis2) → visited ⊆ vis2 := by
  intro flds
  induction flds with
  | nil =>
    intro visited b vis2 h
    simp only [reachFields] at h
    obtain ⟨_, hv⟩ := someBL_inj h
    subst hv
    exact List.Subset.refl _
  | cons f rest ih =>
    intro visited b vis2 h
    simp only [reachFields] at h
    split at h
    · split at h
      · exact absurd h (by simp)
      · rename_i vis3 heq
        obtain ⟨_, hv⟩ := someBL_inj h
        subst hv
        exact hP _ _ _ _ heq
      · rename_i vis3 heq
        exact List.Subset.trans (hP _ _ _ _ heq) (ih vis3 b vis2 h)
    · exact ih visited b vis2 h

theorem canReachF_mono (dtos : List DTOMapping) (toN : String) :
    ∀ fuel fr visited b vis2,
      canReachF dtos toN fuel fr visited = some (b, vis2) → visited ⊆ vis2 := by
  intro fuel
  induction fuel with
  | zero => intro fr visited b vis2 h; simp [canReachF] at h
  | succ n ih =>
    intro fr visited b vis2 h
    simp only [canReachF] at h
    split at h
    · obtain ⟨_, hv⟩ := someBL_inj h
      subst hv
      exact List.Subset.refl _
    · split at h
      · obtain ⟨_, hv⟩ := someBL_inj h
        subst hv
        exact List.Subset.refl _
      · split at h
        · rename_i dto heq
          exact List.Subset.trans (List.subset_cons_self fr visited)
            (reachFields_mono_of dtos toN n ih dto.fields (fr :: visited) b vis2 h)
        · obtain ⟨_, hv⟩ := someBL_inj h
          subst hv
          exact List.subset_cons_self fr visited

theorem reachFields_sound_of (dtos : List DTOMapping) (toN : String) (fuel : Nat)
    (hP : ∀ fr visited vis2, canReachF dtos toN fuel fr visited = some (true, vis2) →
      Relation.ReflTransGen (nestedEdge dtos) fr toN) :
    ∀ flds visited vis2,
      reachFields dtos toN fuel flds visited = some (true, vis2) →
      ∃ f ∈ flds, f.nestedDTO ≠ "" ∧ Relation.ReflTransGen (nestedEdge dtos) f.nestedDTO toN := by
  intro flds
  induction flds with
  | nil =>
    intro visited vis2 h
    simp only [reachFields] at h
    obtain ⟨hb, _⟩ := someBL_inj h
    exact absurd hb (by simp)
  | cons f rest ih =>
    intro visited vis2 h
    simp only [reachFields] at h
    split at h
    · rename_i hn
      split at h
      · exact absurd h (by simp)
      · rename_i vis3 heq
        obtain ⟨_, hv⟩ := someBL_inj h
        subst hv
        exact ⟨f, List.mem_cons_self f rest, hn, hP _ _ _ heq⟩
      · rename_i vis3 heq
        obtain ⟨f2, hf2, hn2, hr⟩ := ih vis3 vis2 h
        exact ⟨f2, List.mem_cons_of_mem f hf2, hn2, hr⟩
    · obtain ⟨f2, hf2, hn2, hr⟩ := ih visited vis2 h
      exact ⟨f2, List.mem_cons_of_mem f hf2, hn2, hr⟩

theorem canReachF_sound (dtos : List DTOMapping) (toN : String) :
    ∀ fuel fr visited vis2,
      canReachF dtos toN fuel fr visited = some (true, vis2) →
      Relation.ReflTransGen (nestedEdge dtos) fr toN := by
  intro fuel
  induction fuel with
  | zero => intro fr visited vis2 h; simp [canReachF] at h
  | succ n ih =>
    intro fr visited vis2 h
    simp only [canReachF] at h
    split at h
    · rename_i h1
      subst h1
      exact Relation.ReflTransGen.refl
    · split at h
      · obtain ⟨hb, _⟩ := someBL_inj h
        exact absurd hb (by simp)
      · split at h
        · rename_i dto heq
          obtain ⟨f, hf, hn, hr⟩ :=
            reachFields_sound_of dtos toN n ih dto.fields (fr :: visited) vis2 h
          exact Relation.ReflTransGen.head ⟨dto, heq, f, hf, hn, rfl⟩ hr
        · obtain ⟨hb, _⟩ := someBL_inj h
          exact absurd hb (by simp)

theorem reachFields_closed_of (dtos : List DTOMapping) (toN : String) (fuel : Nat)
    (hPm : ∀ fr visited b vis2, canReachF dtos toN fuel fr visited = some (b, vis2) →
      visited ⊆ vis2)
    (hPc : ∀ fr visited vis2, canReachF dtos toN fuel fr visited = some (false, vis2) →
      fr ∈ vis2 ∧ ∀ x ∈ vis2, x ∉ visited →
        x ≠ toN ∧ ∀ y, nestedEdge dtos x y → y ∈ vis2) :
    ∀ flds visited vis2,
      reachFields dtos toN fuel flds visited = some (false, vis2) →
      (∀ f ∈ flds, f.nestedDTO ≠ "" → f.nestedDTO ∈ vis2) ∧ visited ⊆ vis2 ∧
        ∀ x ∈ vis2, x ∉ visited →
          x ≠ toN ∧ ∀ y, nestedEdge dtos x y → y ∈ vis2 := by
  intro flds
  induction flds with
  | nil =>
    intro visited vis2 h
    simp only [reachFields] at h
    obtain ⟨_, hv⟩ := someBL_inj h
    subst hv
    refine ⟨by simp, List.Subset.refl _, ?_⟩
    intro x hx hnx
    exact absurd hx hnx
  | cons f rest ih =>
    intro visited vis2 h
    simp only [reachFields] at h
    split at h
    · rename_i hn
      split at h
      · exact absurd h (by simp)
      · rename_i vis3 heq
        obtain ⟨hb, _⟩ := someBL_inj h
        exact absurd hb (by simp)
      · rename_i vis3 heq
        obtain ⟨hmem3, hdelta3⟩ := hPc _ _ _ heq
        obtain ⟨hflds, hsub, hdelta⟩ := ih vis3 vis2 h
        have hsub13 : visited ⊆ vis3 := hPm _ _ _ _ heq
        refine ⟨?_, List.Subset.trans hsub13 hsub, ?_⟩
        · intro f2 hf2 hn2
          rcases List.mem_cons.mp hf2 with rfl | hf2r
          · exact hsub hmem3
          · exact hflds f2 hf2r hn2
        · intro x hx hnx
          by_cases hx3 : x ∈ vis3
          · obtain ⟨hxt, hxe⟩ := hdelta3 x hx3 hnx
            exact ⟨hxt, fun y hy => hsub (hxe y hy)⟩
          · exact hdelta x hx hx3
    · rename_i hn
      obtain ⟨hflds, hsub, hdelta⟩ := ih visited vis2 h
      refine ⟨?_, hsub, hdelta⟩
      intro f2 hf2 hn2
      rcases List.mem_cons.mp hf2 with rfl | hf2r
      · exact absurd hn2 hn
      · exact hflds f2 hf2r hn2

theorem canReachF_closed (dtos : List DTOMapping) (toN : String) :
    ∀ fuel fr visited vis2,
      canReachF dtos toN fuel fr visited = some (false, vis2) →
      fr ∈ vis2 ∧ ∀ x ∈ vis2, x ∉ visited →
        x ≠ toN ∧ ∀ y, nestedEdge dtos x y → y ∈ vis2 := by
  intro fuel
  induction fuel with
  | zero => intro fr visited vis2 h; simp [canReachF] at h
  | succ n ih =>
    intro fr visited vis2 h
    simp only [canReachF] at h
    split at h
    · obtain ⟨hb, _⟩ := someBL_inj h
      exact absurd hb (by simp)
    · rename_i h1
      split at h
      · rename_i h2
        obtain ⟨_, hv⟩ := someBL_inj h
        subst hv
        exact ⟨h2, fun x hx hnx => absurd hx hnx⟩
      · rename_i h2
        split at h
        · rename_i dto heq
          obtain ⟨hflds, hsub, hdelta⟩ :=
            reachFields_closed_of dtos toN n (canReachF_mono dtos toN n) ih
              dto.fields (fr :: visited) vis2 h
          refine ⟨hsub (List.mem_cons_self fr visited), ?_⟩
          intro x hx hnx
          by_cases hxf : x = fr
          · subst hxf
            refine ⟨h1, ?_⟩
            intro y hy
            obtain ⟨dtoA, hlA, f2, hf2, hn2, hfy⟩ := hy
            rw [heq] at hlA
            obtain rfl := Option.some.inj hlA
            exact hfy ▸ hflds f2 hf2 hn2
          · have hxcv : x ∉ fr :: visited := by simp [hxf, hnx]
            exact hdelta x hx hxcv
        · rename_i heq
          obtain ⟨_, hv⟩ := someBL_inj h
          subst hv
          refine ⟨List.mem_cons_self fr visited, ?_⟩
          intro x hx hnx
          have hxf : x = fr := by
            rcases List.mem_cons.mp hx with rfl | hxv
            · rfl
            · exact absurd hxv hnx
          subst hxf
          refine ⟨h1, ?_⟩
          intro y hy
          obtain ⟨dtoA, hlA, _⟩ := hy
          rw [heq] at hlA
          exact absurd hlA (by simp)

theorem reachFields_total_of (dtos : List DTOMapping) (toN : String) (fuel : Nat)
    (hP : ∀ fr visited, unvisitedCount dtos visited < fuel →
      canReachF dtos toN fuel fr visited ≠ none) :
    ∀ flds visited, unvisitedCount dtos visited < fuel →
      reachFields dtos toN fuel flds visited ≠ none := by
  intro flds
  induction flds with
  | nil => intro visited hlt; simp [reachFields]
  | cons f rest ih =>
    intro visited hlt
    simp only [reachFields]
    split
    · cases hc : canReachF dtos toN fuel f.nestedDTO visited with
      | none => exact absurd hc (hP _ _ hlt)
      | some p =>
        cases p with
        | mk b2 v2 =>
          cases b2
          · have hsub : visited ⊆ v2 := canReachF_mono dtos toN fuel _ _ _ _ hc
            have hle : unvisitedCount dtos v2 ≤ unvisitedCount dtos visited :=
              unvisitedCount_le_of_subset dtos hsub
            exact ih v2 (by omega)
          · simp
    · exact ih visited hlt

theorem canReachF_total (dtos : List DTOMapping) (toN : String) :
    ∀ fuel fr visited, unvisitedCount dtos visited < fuel →
      canReachF dtos toN fuel fr visited ≠ none := by
  intro fuel
  induction fuel with
  | zero => intro fr visited hlt; exact absurd hlt (Nat.not_lt_zero _)
  | succ n ih =>
    intro fr visited hlt
    simp only [canReachF]
    split
    · simp
    · rename_i h1
      split
      · simp
      · rename_i h2
        split
        · rename_i dto heq
          apply reachFields_total_of dtos toN n ih dto.fields (fr :: visited)
          have hfr : fr ∈ dtos.map DTOMapping.name := mapLookup_name_mem dtos fr dto heq
          have hlt2 := unvisitedCount_cons_lt dtos fr visited hfr h2
          omega
        · simp

theorem canReachF_canon_total (dtos : List DTOMapping) (toN fr : String) :
    canReachF dtos toN (canonFuel dtos) fr [] ≠ none :=
  canReachF_total dtos toN (canonFuel dtos) fr [] (unvisitedCount_lt_canonFuel dtos)

theorem canReachF_complete (dtos : List DTOMapping) (toN fr : String) (vis2 : List String)
    (hreach : Relation.ReflTransGen (nestedEdge dtos) fr toN)
    (h : canReachF dtos toN (canonFuel dtos) fr [] = some (false, vis2)) : False := by
  obtain ⟨hfr, hdelta⟩ := canReachF_closed dtos toN (canonFuel dtos) fr [] vis2 h
  have hall : ∀ x ∈ vis2, x ≠ toN ∧ ∀ y, nestedEdge dtos x y → y ∈ vis2 :=
    fun x hx => hdelta x hx (by simp)
  have key : ∀ x, Relation.ReflTransGen (nestedEdge dtos) x toN → x ∈ vis2 → False := by
    intro x hx
    induction hx using Relation.ReflTransGen.head_induction_on with
    | refl => intro hmem; exact (hall toN hmem).1 rfl
    | head h1 h2 ih => intro hmem; exact ih ((hall _ hmem).2 _ h1)
  exact key fr hreach hfr

theorem detectCircular_iff (dtos : List DTOMapping) (currentDTO nestedDTO : String) :
    detectCircularDependency dtos currentDTO nestedDTO = true ↔
      Relation.ReflTransGen (nestedEdge dtos) nestedDTO currentDTO := by
  unfold detectCircularDependency
  cases h : canReachF dtos currentDTO (canonFuel dtos) nestedDTO [] with
  | none => exact absurd h (canReachF_canon_total dtos currentDTO nestedDTO)
  | some p =>
    cases p with
    | mk b vis2 =>
      cases b
      · simp only [Option.map_some', Option.getD_some, Bool.false_eq_true, false_iff]
        intro hreach
        exact canReachF_complete dtos currentDTO nestedDTO vis2 hreach h
      · simp only [Option.map_some', Option.getD_some, true_iff]
        exact canReachF_sound dtos currentDTO (canonFuel dtos) nestedDTO [] vis2 h

theorem ensure_ne_remove (s : String) :
    "Ensure " ++ s ++ " is defined with automapper:from annotation" ≠
      "Remove circular references or use a converter instead" := by
  intro h
  have hd := congrArg String.data h
  rw [String.data_append, String.data_append] at hd
  have h1 : "Ensure ".data = 'E' :: "nsure ".data := rfl
  have h2 : "Remove circular references or use a converter instead".data =
      'R' :: "emove circular references or use a converter instead".data := rfl
  rw [h1, h2, List.cons_append, List.cons_append] at hd
  injection hd with hc htl
  exact absurd hc (by decide)

theorem both_ne_remove :
    ("Both source and destination must be slices or both must be single values" : String) ≠
      "Remove circular references or use a converter instead" := by decide

/-- C3: for a target DTO present in the validator's DTO map under its own
name, nested-DTO validation of one of its fields nesting `B` reports the
circular-dependency Error (the record suggesting "Remove circular
references or use a converter instead") exactly when the DTO is reachable
from `B` along nested-reference edges - including the direct self-nesting
case `B = A` - and the visited-set search always terminates: on this
schema the canonical fuel is never exhausted for any start and target. -/
theorem C3_cycle_detection (v : ValidatorState) (dtoA : DTOMapping) (sourceName : String)
    (field : FieldInfo) (sourceField : FieldTypeInfo)
    (hA : mapLookup DTOMapping.name v.dtos dtoA.name = some dtoA) :
    (∀ fr toN, canReachF v.dtos toN (canonFuel v.dtos) fr [] ≠ none) ∧
    ((∃ e ∈ (validateNestedDTO v dtoA sourceName field sourceField).1,
        e.suggestion = "Remove circular references or use a converter instead") ↔
      Relation.ReflTransGen (nestedEdge v.dtos) field.nestedDTO dtoA.name) := by
  refine ⟨fun fr toN => canReachF_canon_total v.dtos toN fr, ?_⟩
  constructor
  · rintro ⟨e, hmem, hsugg⟩
    simp only [validateNestedDTO] at hmem
    split at hmem
    · rename_i heqB
      simp at hmem
      subst hmem
      exact absurd hsugg (ensure_ne_remove field.nestedDTO)
    · rename_i dtoB heqB
      split at hmem
      · rename_i hdet
        exact (detectCircular_iff v.dtos dtoA.name field.nestedDTO).mp hdet
      · rename_i hdet
        split at hmem
        · simp at hmem
          subst hmem
          exact absurd hsugg both_ne_remove
        · simp at hmem
  · intro hreach
    have hlookB : ∃ dtoB, mapLookup DTOMapping.name v.dtos field.nestedDTO = some dtoB := by
      rcases Relation.ReflTransGen.cases_head hreach with heq | ⟨c, hedge, _⟩
      · exact ⟨dtoA, by rw [heq]; exact hA⟩
      · obtain ⟨dtoB, hB, _⟩ := hedge
        exact ⟨dtoB, hB⟩
    obtain ⟨dtoB, hB⟩ := hlookB
    have hdet : detectCircularDependency v.dtos dtoA.name field.nestedDTO = true :=
      (detectCircular_iff v.dtos dtoA.name field.nestedDTO).mpr hreach
    simp [validateNestedDTO, hB, hdet]

/-- C3 witness: on the two-DTO schema where `ADTO` nests `BDTO` and `BDTO`
nests `ADTO` back, validating the nesting field of `ADTO` reports the
circular-dependency Error. -/
theorem C3_cycle_detection_witness :
    mapLookup DTOMapping.name
        [⟨"ADTO", ["SA"], [⟨"FB", "BDTO", "", "", "", false, "BDTO"⟩], false⟩,
         ⟨"BDTO", ["SB"], [⟨"FA", "ADTO", "", "", "", false, "ADTO"⟩], false⟩] "ADTO" =
      some ⟨"ADTO", ["SA"], [⟨"FB", "BDTO", "", "", "", false, "BDTO"⟩], false⟩ ∧
    ∃ e ∈ (validateNestedDTO
        ⟨[], [⟨"ADTO", ["SA"], [⟨"FB", "BDTO", "", "", "", false, "BDTO"⟩], false⟩,
              ⟨"BDTO", ["SB"], [⟨"FA", "ADTO", "", "", "", false, "ADTO"⟩], false⟩], []⟩
        ⟨"ADTO", ["SA"], [⟨"FB", "BDTO", "", "", "", false, "BDTO"⟩], false⟩
        "SA" ⟨"FB", "BDTO", "", "", "", false, "BDTO"⟩ ⟨"BSrc", false, false, "BSrc"⟩).1,
      e.suggestion = "Remove circular references or use a converter instead" := by
  have hA : mapLookup DTOMapping.name
      [⟨"ADTO", ["SA"], [⟨"FB", "BDTO", "", "", "", false, "BDTO"⟩], false⟩,
       ⟨"BDTO", ["SB"], [⟨"FA", "ADTO", "", "", "", false, "ADTO"⟩], false⟩] "ADTO" =
      some ⟨"ADTO", ["SA"], [⟨"FB", "BDTO", "", "", "", false, "BDTO"⟩], false⟩ := by decide
  refine ⟨hA, ?_⟩
  have h := C3_cycle_detection
    ⟨[], [⟨"ADTO", ["SA"], [⟨"FB", "BDTO", "", "", "", false, "BDTO"⟩], false⟩,
          ⟨"BDTO", ["SB"], [⟨"FA", "ADTO", "", "", "", false, "ADTO"⟩], false⟩], []⟩
    ⟨"ADTO", ["SA"], [⟨"FB", "BDTO", "", "", "", false, "BDTO"⟩], false⟩
    "SA" ⟨"FB", "BDTO", "", "", "", false, "BDTO"⟩ ⟨"BSrc", false, false, "BSrc"⟩ hA
  apply h.2.mpr
  exact Relation.ReflTransGen.single
    ⟨⟨"BDTO", ["SB"], [⟨"FA", "ADTO", "", "", "", false, "ADTO"⟩], false⟩, by decide,
      ⟨"FA", "ADTO", "", "", "", false, "ADTO"⟩, by simp, by decide, rfl⟩

end AMap
